import Mathlib

/-!
# The hook layer and the fd table of the coroutine library

A shallow embedding of `fiber_lib/6hook`: the per-fd context `FdCtx`, the table
`FdManager` (`fd_manager.h`, `fd_manager.cpp`) and the hooked POSIX wrappers of
`hook.cpp`.

The wrappers talk to three things that are not part of the library: the
original libc symbols (`xxx_f`), the `IOManager` of the calling thread and the
rest of the process while the calling fiber is parked.  These are an oracle
`Env K` over an arbitrary kernel state `K`; every theorem holds for every
oracle.  Everything a wrapper does to the outside is appended to a log, so that
"calls the raw symbol once" or "registers no timer" are statements about the
log.

C `int`, `long` and `ssize_t` values are `Int`; `uint64_t` values are `Nat`
with an explicit reduction modulo `2 ^ 64` where a conversion happens.  The
bitwise operators `&`, `|`, `~` on `int` are `Int.land`, `Int.lor`, `Int.lnot`
(two's complement on unbounded integers, which agrees with the 32-bit
operators since these never carry).
-/

namespace Coroutine

/-! ## Constants of the system headers (Linux, asm-generic values) -/

/-- The `O_NONBLOCK` flag of `fcntl.h` (octal 04000, bit 11). -/
def O_NONBLOCK : Int := 2048

def F_DUPFD : Int := 0
def F_GETFD : Int := 1
def F_SETFD : Int := 2
def F_GETFL : Int := 3
def F_SETFL : Int := 4
def F_GETLK : Int := 5
def F_SETLK : Int := 6
def F_SETLKW : Int := 7
def F_SETOWN : Int := 8
def F_GETOWN : Int := 9
def F_SETSIG : Int := 10
def F_GETSIG : Int := 11
def F_SETOWN_EX : Int := 15
def F_GETOWN_EX : Int := 16
def F_SETLEASE : Int := 1024
def F_GETLEASE : Int := 1025
def F_NOTIFY : Int := 1026
def F_DUPFD_CLOEXEC : Int := 1030
def F_SETPIPE_SZ : Int := 1031
def F_GETPIPE_SZ : Int := 1032

def EINTR : Int := 4
def EBADF : Int := 9
def EAGAIN : Int := 11
def ETIMEDOUT : Int := 110
def EINPROGRESS : Int := 115

def SOL_SOCKET : Int := 1
def SO_ERROR : Int := 4
def SO_RCVTIMEO : Int := 20
def SO_SNDTIMEO : Int := 21
def FIONBIO : Int := 21537

/-- The value of `(uint64_t)-1`, the "no timeout" sentinel. -/
def UINT64_MAX : Nat := 2 ^ 64 - 1

/-- Conversion of a signed value to `uint64_t`. -/
def toUInt64 (v : Int) : Nat := (v % 2 ^ 64).toNat

/-- Conversion of a value to `unsigned int` (32 bits). -/
def toUInt32 (v : Int) : Nat := (v % 2 ^ 32).toNat

/-- Conversion of a value to `int` (32 bits, two's complement). -/
def toInt32 (v : Int) : Int := (v + 2 ^ 31) % 2 ^ 32 - 2 ^ 31

/-- Conversion of a value to `long` (64 bits, two's complement). -/
def toInt64 (v : Int) : Int := (v + 2 ^ 63) % 2 ^ 64 - 2 ^ 63

/-- The enum `IOManager::Event` of `ioscheduler.h`. -/
def READ : Nat := 1

def WRITE : Nat := 4

/-! ## The outside world -/

/-- The symbols whose original (libc) versions the library calls. -/
inductive Sym
  | sleep | usleep | nanosleep | socket | connect | accept
  | read | readv | recv | recvfrom | recvmsg
  | write | writev | send | sendto | sendmsg
  | close | fcntl | ioctl | getsockopt | setsockopt | fstat
  deriving DecidableEq

/-- One call of an original symbol: the symbol and the argument list as the
callee receives it (pointers are opaque integers). -/
structure Call where
  sym : Sym
  args : List Int
  deriving DecidableEq

/-- What a wrapper does to the outside, in program order. -/
inductive Act
  | raw (c : Call)
  | addTimer (ms : Nat) (recurring : Bool) (thread : Int)
  | addConditionTimer (ms : Nat) (fd : Int) (event : Nat)
  | timerCancel
  | addEvent (fd : Int) (event : Nat)
  | cancelEvent (fd : Int) (event : Nat)
  | cancelAll (fd : Int)
  | yield
  deriving DecidableEq

/-- The oracle for everything outside the library.
* `raw c errno k`: result, new `errno` and new kernel state of the original
  symbol;
* `S_ISSOCK fd k`: whether the `st_mode` that a successful `fstat(fd)` wrote
  is a socket;
* `addEvent fd event errno k`: return value of `IOManager::addEvent`, with
  the `errno` and kernel state it leaves;
* `resume errno k`: the fiber is parked in `yield`; the flag tells whether
  the condition timer of the operation fired before the fiber was resumed,
  with the `errno` and kernel state the fiber finds when it runs again;
* `hasIOManager k`: whether `IOManager::GetThis()` is non-null;
* `so_error k`: the value a successful `getsockopt(SO_ERROR)` stored. -/
structure Env (K : Type) where
  raw : Call → Int → K → Int × Int × K
  S_ISSOCK : Int → K → Bool
  addEvent : Int → Nat → Int → K → Int × Int × K
  resume : Int → K → Bool × Int × K
  hasIOManager : K → Bool
  so_error : K → Int

/-! ## FdCtx (`fd_manager.h`) -/

/-- The per-fd context, with the member initialisers of the class. -/
structure FdCtx where
  m_isInit : Bool := false
  m_isSocket : Bool := false
  m_sysNonblock : Bool := false
  m_userNonblock : Bool := false
  m_isClosed : Bool := false
  m_fd : Int
  m_recvTimeout : Nat := 2 ^ 64 - 1
  m_sendTimeout : Nat := 2 ^ 64 - 1
  deriving DecidableEq

/-- The state of the calling thread as the library sees it: the thread-local
hook flag, the table of the `FdManager` singleton, `errno`, the kernel and the
log of outside actions. -/
structure St (K : Type) where
  t_hook_enable : Bool
  m_datas : List (Option FdCtx)
  errno : Int
  kernel : K
  log : List Act

variable {K : Type}

/-- Append one action to the log. -/
def St.emit (s : St K) (a : Act) : St K :=
  { s with log := s.log ++ [a] }

/-- Call an original symbol: log the call, take result and `errno` from the
oracle. -/
def rawCall (E : Env K) (c : Call) (s : St K) : Int × St K :=
  let r := E.raw c s.errno s.kernel
  (r.1, { s with errno := r.2.1, kernel := r.2.2, log := s.log ++ [Act.raw c] })

def FdCtx.isInit (c : FdCtx) : Bool := c.m_isInit

def FdCtx.isSocket (c : FdCtx) : Bool := c.m_isSocket

def FdCtx.isClosed (c : FdCtx) : Bool := c.m_isClosed

def FdCtx.setUserNonblock (c : FdCtx) (v : Bool) : FdCtx := { c with m_userNonblock := v }

def FdCtx.getUserNonblock (c : FdCtx) : Bool := c.m_userNonblock

def FdCtx.setSysNonblock (c : FdCtx) (v : Bool) : FdCtx := { c with m_sysNonblock := v }

def FdCtx.getSysNonblock (c : FdCtx) : Bool := c.m_sysNonblock

/-- The method `FdCtx::setTimeout` (`fd_manager.cpp`). -/
def FdCtx.setTimeout (c : FdCtx) (type : Int) (v : Nat) : FdCtx :=
  if type = SO_RCVTIMEO then { c with m_recvTimeout := v } else { c with m_sendTimeout := v }

/-- The method `FdCtx::getTimeout` (`fd_manager.cpp`). -/
def FdCtx.getTimeout (c : FdCtx) (type : Int) : Nat :=
  if type = SO_RCVTIMEO then c.m_recvTimeout else c.m_sendTimeout

/-- The method `FdCtx::init` (`fd_manager.cpp`): `fstat` decides `m_isInit` and
`m_isSocket`; a socket is switched to `O_NONBLOCK` with the original `fcntl`. -/
def FdCtx.init (E : Env K) (c : FdCtx) (s : St K) : Bool × FdCtx × St K :=
  if c.m_isInit then (true, c, s)
  else
    let r := rawCall E ⟨Sym.fstat, [c.m_fd]⟩ s
    let c1 : FdCtx :=
      if r.1 = -1 then { c with m_isInit := false, m_isSocket := false }
      else { c with m_isInit := true, m_isSocket := E.S_ISSOCK c.m_fd r.2.kernel }
    if c1.m_isSocket then
      let g := rawCall E ⟨Sym.fcntl, [c.m_fd, F_GETFL, 0]⟩ r.2
      let s3 :=
        if Int.land g.1 O_NONBLOCK = 0 then
          (rawCall E ⟨Sym.fcntl, [c.m_fd, F_SETFL, Int.lor g.1 O_NONBLOCK]⟩ g.2).2
        else g.2
      (c1.m_isInit, { c1 with m_sysNonblock := true }, s3)
    else
      (c1.m_isInit, { c1 with m_sysNonblock := false }, r.2)

/-- The constructor `FdCtx::FdCtx(int fd)`: member initialisers, then `init`. -/
def FdCtx.new (E : Env K) (fd : Int) (s : St K) : FdCtx × St K :=
  (FdCtx.init E { m_fd := fd } s).2

/-! ## FdManager (`fd_manager.cpp`) -/

/-- The call `std::vector::resize(n)` on a vector of shared pointers: cut, or
pad with null. -/
def vector_resize (v : List (Option FdCtx)) (n : Nat) : List (Option FdCtx) :=
  v.take n ++ List.replicate (n - v.length) none

/-- The table after `FdManager::FdManager()`: `m_datas.resize(64)`. -/
def FdManager.new : List (Option FdCtx) := vector_resize [] 64

/-- Lines 124-133 of `FdManager::get`, under the write lock: resize when `fd`
is beyond the table, construct `FdCtx(fd)`, store it in slot `fd`.

`m_datas.resize(fd*1.5)` multiplies in `double` and truncates to `size_t`; for
an `int` the product is exact, so the new size is `fd * 3 / 2`. -/
def FdManager.create (E : Env K) (s : St K) (fd : Int) : Option FdCtx × St K :=
  let datas :=
    if s.m_datas.length ≤ fd.toNat then vector_resize s.m_datas (fd * 3 / 2).toNat
    else s.m_datas
  let r := FdCtx.new E fd { s with m_datas := datas }
  (some r.1, { r.2 with m_datas := r.2.m_datas.set fd.toNat (some r.1) })

/-- The method `FdManager::get(fd, auto_create)`.

A negative `fd` other than `-1` compares as a huge `size_t`, so it is out of
range for a lookup; with `auto_create` the C++ would resize to a negative
`double`, which has no defined value, and the model returns null there (no
wrapper and no theorem below depends on that case). -/
def FdManager.get (E : Env K) (s : St K) (fd : Int) (auto_create : Bool) :
    Option FdCtx × St K :=
  if fd = -1 then (none, s)
  else if fd < 0 then (none, s)
  else if s.m_datas.length ≤ fd.toNat then
    if auto_create = false then (none, s)
    else FdManager.create E s fd
  else
    if (s.m_datas.getD fd.toNat none).isSome ∨ auto_create = false then
      (s.m_datas.getD fd.toNat none, s)
    else FdManager.create E s fd

/-- The method `FdManager::del(fd)`: the comparison is in `size_t`, so a
negative `fd` is out of range. -/
def FdManager.del (s : St K) (fd : Int) : St K :=
  if fd < 0 ∨ s.m_datas.length ≤ fd.toNat then s
  else { s with m_datas := s.m_datas.set fd.toNat none }

/-- Write a context that was obtained from `get(fd)` and then modified through
the shared pointer back to its slot. -/
def St.store (s : St K) (fd : Int) (c : FdCtx) : St K :=
  { s with m_datas := s.m_datas.set fd.toNat (some c) }

/-! ## The hook layer (`hook.cpp`) -/

/-- The `timer_info` of `hook.cpp`. -/
structure timer_info where
  cancelled : Int := 0
  deriving DecidableEq

/-- The action of the condition timer installed by `do_io` and by
`connect_with_timeout`; `t` is the result of `winfo.lock()`. -/
def timeout_action (fd : Int) (event : Nat) (t : Option timer_info) (s : St K) :
    Option timer_info × St K :=
  match t with
  | none => (none, s)
  | some t =>
    if t.cancelled ≠ 0 then (some t, s)
    else (some { t with cancelled := ETIMEDOUT }, s.emit (Act.cancelEvent fd event))

/-- The call `IOManager::addEvent(fd, event)` for the current fiber. -/
def addEvent (E : Env K) (fd : Int) (event : Nat) (s : St K) : Int × St K :=
  let r := E.addEvent fd event s.errno s.kernel
  (r.1, { s with errno := r.2.1, kernel := r.2.2, log := s.log ++ [Act.addEvent fd event] })

/-- The call `Fiber::yield()`, up to the moment the fiber runs again.  When a
condition timer is installed and it fired meanwhile, its action has run on the
live `timer_info`. -/
def yield (E : Env K) (fd : Int) (event : Nat) (timer : Bool) (tinfo : timer_info)
    (s : St K) : timer_info × St K :=
  let y := E.resume s.errno s.kernel
  let s1 : St K := { s with errno := y.2.1, kernel := y.2.2, log := s.log ++ [Act.yield] }
  if timer ∧ y.1 = true then
    let a := timeout_action fd event (some tinfo) s1
    (a.1.getD tinfo, a.2)
  else (tinfo, s1)

/-- Lines 126-132 of `do_io`: call the original function, and again while it
fails with `EINTR`.  `none` when the fuel is used up. -/
def call_while_EINTR (E : Env K) (c : Call) : Nat → St K → Option (Int × St K)
  | 0, _ => none
  | fuel + 1, s =>
    let r := rawCall E c s
    if r.1 = -1 ∧ r.2.errno = EINTR then call_while_EINTR E c fuel r.2 else some r

/-- The block of `do_io` entered when the original function failed with
`EAGAIN` (lines 137-187): install the condition timer when the timeout is
finite, register the event, park, and on resume cancel the timer.  The result
is either the value `do_io` returns (`Sum.inl`) or the `timer_info` and state
with which it jumps back to `retry` (`Sum.inr`). -/
def do_io_wait (E : Env K) (fd : Int) (event : Nat) (timeout : Nat) (tinfo : timer_info)
    (s : St K) : Sum (Int × St K) (timer_info × St K) :=
  let timer : Bool := decide (timeout ≠ UINT64_MAX)
  let s2 := if timer then s.emit (Act.addConditionTimer timeout fd event) else s
  let rt := addEvent E fd event s2
  if rt.1 ≠ 0 then
    Sum.inl (-1, if timer then rt.2.emit Act.timerCancel else rt.2)
  else
    let y := yield E fd event timer tinfo rt.2
    let s5 := if timer then y.2.emit Act.timerCancel else y.2
    if y.1.cancelled = ETIMEDOUT then
      Sum.inl (-1, { s5 with errno := y.1.cancelled })
    else Sum.inr (y.1, s5)

/-- The body of `do_io` from the label `retry` on.  `timeout` is the value
read from the context, `tinfo` the shared `timer_info`.  `none` when the fuel
is used up (the C++ loops for as long as the kernel answers `EINTR` or
`EAGAIN`). -/
def do_io_retry (E : Env K) (fd : Int) (c : Call) (event : Nat) (timeout : Nat) :
    Nat → timer_info → St K → Option (Int × St K)
  | 0, _, _ => none
  | fuel + 1, tinfo, s =>
    match call_while_EINTR E c (fuel + 1) s with
    | none => none
    | some r =>
      if r.1 = -1 ∧ r.2.errno = EAGAIN then
        match do_io_wait E fd event timeout tinfo r.2 with
        | Sum.inl res => some res
        | Sum.inr next => do_io_retry E fd c event timeout fuel next.1 next.2
      else some r

/-- The template `do_io(fd, fun, name, event, timeout_so, args...)`; the
original function and its arguments are `sym` and `args`. -/
def do_io (E : Env K) (fd : Int) (sym : Sym) (event : Nat) (timeout_so : Int)
    (args : List Int) (fuel : Nat) (s : St K) : Option (Int × St K) :=
  let c : Call := ⟨sym, fd :: args⟩
  if s.t_hook_enable = false then some (rawCall E c s)
  else
    let g := FdManager.get E s fd false
    match g.1 with
    | none => some (rawCall E c g.2)
    | some ctx =>
      if ctx.isClosed then some (-1, { g.2 with errno := EBADF })
      else if ctx.isSocket = false ∨ ctx.getUserNonblock then some (rawCall E c g.2)
      else do_io_retry E fd c event (ctx.getTimeout timeout_so) fuel {} g.2

/-- Hooked `sleep`: `seconds*1000` is `unsigned int` arithmetic. -/
def sleep (E : Env K) (seconds : Nat) (s : St K) : Int × St K :=
  if s.t_hook_enable = false then rawCall E ⟨Sym.sleep, [seconds]⟩ s
  else
    let s1 := s.emit (Act.addTimer (seconds * 1000 % 2 ^ 32) false (-1))
    (0, (yield E 0 0 false {} s1).2)

/-- Hooked `usleep`. -/
def usleep (E : Env K) (usec : Nat) (s : St K) : Int × St K :=
  if s.t_hook_enable = false then rawCall E ⟨Sym.usleep, [usec]⟩ s
  else
    let s1 := s.emit (Act.addTimer (usec / 1000) false (-1))
    (0, (yield E 0 0 false {} s1).2)

/-- Hooked `nanosleep`; `tv_sec`, `tv_nsec` are the fields of `*req`, and
`timeout_ms` is an `int` that `addTimer` receives as `uint64_t`. -/
def nanosleep (E : Env K) (req rem : Int) (tv_sec tv_nsec : Int) (s : St K) : Int × St K :=
  if s.t_hook_enable = false then rawCall E ⟨Sym.nanosleep, [req, rem]⟩ s
  else
    let timeout_ms := toInt32 (tv_sec * 1000 + Int.tdiv (Int.tdiv tv_nsec 1000) 1000)
    let s1 := s.emit (Act.addTimer (toUInt64 timeout_ms) false (-1))
    (0, (yield E 0 0 false {} s1).2)

/-- Hooked `socket`. -/
def socket (E : Env K) (domain type protocol : Int) (s : St K) : Int × St K :=
  if s.t_hook_enable = false then rawCall E ⟨Sym.socket, [domain, type, protocol]⟩ s
  else
    let r := rawCall E ⟨Sym.socket, [domain, type, protocol]⟩ s
    if r.1 = -1 then r
    else (r.1, (FdManager.get E r.2 r.1 true).2)

/-- Hooked `getsockopt`: the original symbol. -/
def getsockopt (E : Env K) (sockfd level optname optval optlen : Int) (s : St K) :
    Int × St K :=
  rawCall E ⟨Sym.getsockopt, [sockfd, level, optname, optval, optlen]⟩ s

/-- The part of `connect_with_timeout` after the original `connect` answered
`EINPROGRESS`: park on WRITE, then ask for `SO_ERROR`.  The addresses of the
two locals handed to `getsockopt` are written as `0`. -/
def connect_wait (E : Env K) (fd : Int) (timeout_ms : Nat) (s : St K) : Int × St K :=
  let timer : Bool := decide (timeout_ms ≠ UINT64_MAX)
  let s1 := if timer then s.emit (Act.addConditionTimer timeout_ms fd WRITE) else s
  let rt := addEvent E fd WRITE s1
  let check (s : St K) : Int × St K :=
    let g := getsockopt E fd SOL_SOCKET SO_ERROR 0 0 s
    if g.1 = -1 then (-1, g.2)
    else if E.so_error g.2.kernel = 0 then (0, g.2)
    else (-1, { g.2 with errno := E.so_error g.2.kernel })
  if rt.1 = 0 then
    let y := yield E fd WRITE timer {} rt.2
    let s4 := if timer then y.2.emit Act.timerCancel else y.2
    if y.1.cancelled ≠ 0 then (-1, { s4 with errno := y.1.cancelled })
    else check s4
  else
    check (if timer then rt.2.emit Act.timerCancel else rt.2)

/-- The function `connect_with_timeout(fd, addr, addrlen, timeout_ms)`. -/
def connect_with_timeout (E : Env K) (fd addr addrlen : Int) (timeout_ms : Nat)
    (s : St K) : Int × St K :=
  let c : Call := ⟨Sym.connect, [fd, addr, addrlen]⟩
  if s.t_hook_enable = false then rawCall E c s
  else
    let g := FdManager.get E s fd false
    match g.1 with
    | none => (-1, { g.2 with errno := EBADF })
    | some ctx =>
      if ctx.isClosed then (-1, { g.2 with errno := EBADF })
      else if ctx.isSocket = false then rawCall E c g.2
      else if ctx.getUserNonblock then rawCall E c g.2
      else
        let r := rawCall E c g.2
        if r.1 = 0 then (0, r.2)
        else if r.1 ≠ -1 ∨ r.2.errno ≠ EINPROGRESS then r
        else connect_wait E fd timeout_ms r.2

/-- The static `s_connect_timeout`, never assigned after its initialiser. -/
def s_connect_timeout : Nat := UINT64_MAX

/-- Hooked `connect`. -/
def connect (E : Env K) (sockfd addr addrlen : Int) (s : St K) : Int × St K :=
  connect_with_timeout E sockfd addr addrlen s_connect_timeout s

/-- Hooked `accept`. -/
def accept (E : Env K) (sockfd addr addrlen : Int) (fuel : Nat) (s : St K) :
    Option (Int × St K) :=
  match do_io E sockfd Sym.accept READ SO_RCVTIMEO [addr, addrlen] fuel s with
  | none => none
  | some r => if 0 ≤ r.1 then some (r.1, (FdManager.get E r.2 r.1 true).2) else some r

def read (E : Env K) (fd buf count : Int) (fuel : Nat) (s : St K) : Option (Int × St K) :=
  do_io E fd Sym.read READ SO_RCVTIMEO [buf, count] fuel s

def readv (E : Env K) (fd iov iovcnt : Int) (fuel : Nat) (s : St K) : Option (Int × St K) :=
  do_io E fd Sym.readv READ SO_RCVTIMEO [iov, iovcnt] fuel s

def recv (E : Env K) (sockfd buf len flags : Int) (fuel : Nat) (s : St K) :
    Option (Int × St K) :=
  do_io E sockfd Sym.recv READ SO_RCVTIMEO [buf, len, flags] fuel s

def recvfrom (E : Env K) (sockfd buf len flags src_addr addrlen : Int) (fuel : Nat)
    (s : St K) : Option (Int × St K) :=
  do_io E sockfd Sym.recvfrom READ SO_RCVTIMEO [buf, len, flags, src_addr, addrlen] fuel s

def recvmsg (E : Env K) (sockfd msg flags : Int) (fuel : Nat) (s : St K) :
    Option (Int × St K) :=
  do_io E sockfd Sym.recvmsg READ SO_RCVTIMEO [msg, flags] fuel s

def write (E : Env K) (fd buf count : Int) (fuel : Nat) (s : St K) : Option (Int × St K) :=
  do_io E fd Sym.write WRITE SO_SNDTIMEO [buf, count] fuel s

def writev (E : Env K) (fd iov iovcnt : Int) (fuel : Nat) (s : St K) : Option (Int × St K) :=
  do_io E fd Sym.writev WRITE SO_SNDTIMEO [iov, iovcnt] fuel s

def send (E : Env K) (sockfd buf len flags : Int) (fuel : Nat) (s : St K) :
    Option (Int × St K) :=
  do_io E sockfd Sym.send WRITE SO_SNDTIMEO [buf, len, flags] fuel s

def sendto (E : Env K) (sockfd buf len flags dest_addr addrlen : Int) (fuel : Nat)
    (s : St K) : Option (Int × St K) :=
  do_io E sockfd Sym.sendto WRITE SO_SNDTIMEO [buf, len, flags, dest_addr, addrlen] fuel s

def sendmsg (E : Env K) (sockfd msg flags : Int) (fuel : Nat) (s : St K) :
    Option (Int × St K) :=
  do_io E sockfd Sym.sendmsg WRITE SO_SNDTIMEO [msg, flags] fuel s

/-- Hooked `close`. -/
def close (E : Env K) (fd : Int) (s : St K) : Int × St K :=
  if s.t_hook_enable = false then rawCall E ⟨Sym.close, [fd]⟩ s
  else
    let g := FdManager.get E s fd false
    match g.1 with
    | none => rawCall E ⟨Sym.close, [fd]⟩ g.2
    | some _ =>
      let s1 := if E.hasIOManager g.2.kernel then g.2.emit (Act.cancelAll fd) else g.2
      rawCall E ⟨Sym.close, [fd]⟩ (FdManager.del s1 fd)

/-- Hooked `fcntl(fd, cmd, ...)`; `arg` is the third argument, read only by
the commands that take one. -/
def fcntl (E : Env K) (fd cmd arg : Int) (s : St K) : Int × St K :=
  if cmd = F_SETFL then
    let g := FdManager.get E s fd false
    match g.1 with
    | none => rawCall E ⟨Sym.fcntl, [fd, cmd, arg]⟩ g.2
    | some ctx =>
      if ctx.isClosed ∨ ctx.isSocket = false then rawCall E ⟨Sym.fcntl, [fd, cmd, arg]⟩ g.2
      else
        let ctx1 := ctx.setUserNonblock (decide (Int.land arg O_NONBLOCK ≠ 0))
        let arg1 :=
          if ctx1.getSysNonblock then Int.lor arg O_NONBLOCK
          else Int.land arg (Int.lnot O_NONBLOCK)
        rawCall E ⟨Sym.fcntl, [fd, cmd, arg1]⟩ (g.2.store fd ctx1)
  else if cmd = F_GETFL then
    let r := rawCall E ⟨Sym.fcntl, [fd, cmd]⟩ s
    let g := FdManager.get E r.2 fd false
    match g.1 with
    | none => (r.1, g.2)
    | some ctx =>
      if ctx.isClosed ∨ ctx.isSocket = false then (r.1, g.2)
      else if ctx.getUserNonblock then (Int.lor r.1 O_NONBLOCK, g.2)
      else (Int.land r.1 (Int.lnot O_NONBLOCK), g.2)
  else if cmd = F_DUPFD ∨ cmd = F_DUPFD_CLOEXEC ∨ cmd = F_SETFD ∨ cmd = F_SETOWN ∨
      cmd = F_SETSIG ∨ cmd = F_SETLEASE ∨ cmd = F_NOTIFY ∨ cmd = F_SETPIPE_SZ then
    rawCall E ⟨Sym.fcntl, [fd, cmd, arg]⟩ s
  else if cmd = F_GETFD ∨ cmd = F_GETOWN ∨ cmd = F_GETSIG ∨ cmd = F_GETLEASE ∨
      cmd = F_GETPIPE_SZ then
    rawCall E ⟨Sym.fcntl, [fd, cmd]⟩ s
  else if cmd = F_SETLK ∨ cmd = F_SETLKW ∨ cmd = F_GETLK then
    rawCall E ⟨Sym.fcntl, [fd, cmd, arg]⟩ s
  else if cmd = F_GETOWN_EX ∨ cmd = F_SETOWN_EX then
    rawCall E ⟨Sym.fcntl, [fd, cmd, arg]⟩ s
  else rawCall E ⟨Sym.fcntl, [fd, cmd]⟩ s

/-- Hooked `ioctl(fd, request, arg)`; `argval` is the `int` that `arg` points
to, read only for `FIONBIO`. -/
def ioctl (E : Env K) (fd request arg : Int) (argval : Int) (s : St K) : Int × St K :=
  if FIONBIO = request then
    let user_nonblock : Bool := decide (argval ≠ 0)
    let g := FdManager.get E s fd false
    match g.1 with
    | none => rawCall E ⟨Sym.ioctl, [fd, request, arg]⟩ g.2
    | some ctx =>
      if ctx.isClosed ∨ ctx.isSocket = false then rawCall E ⟨Sym.ioctl, [fd, request, arg]⟩ g.2
      else rawCall E ⟨Sym.ioctl, [fd, request, arg]⟩
        (g.2.store fd (ctx.setUserNonblock user_nonblock))
  else rawCall E ⟨Sym.ioctl, [fd, request, arg]⟩ s

/-- Hooked `setsockopt`; `tv_sec`, `tv_usec` are the fields of the `timeval`
that `optval` points to, read only for the two timeout options.  The
milliseconds are computed in `long` (division truncates) and stored as
`uint64_t`. -/
def setsockopt (E : Env K) (sockfd level optname optval optlen : Int)
    (tv_sec tv_usec : Int) (s : St K) : Int × St K :=
  let c : Call := ⟨Sym.setsockopt, [sockfd, level, optname, optval, optlen]⟩
  if s.t_hook_enable = false then rawCall E c s
  else if level = SOL_SOCKET ∧ (optname = SO_RCVTIMEO ∨ optname = SO_SNDTIMEO) then
    let g := FdManager.get E s sockfd false
    match g.1 with
    | none => rawCall E c g.2
    | some ctx =>
      rawCall E c (g.2.store sockfd
        (ctx.setTimeout optname (toUInt64 (toInt64 (tv_sec * 1000 + Int.tdiv tv_usec 1000)))))
  else rawCall E c s

/-! ## Reachable tables -/

/-- The tables an `FdManager` can hold: the constructor's, and what `get`,
`del` and the setters of a stored `FdCtx` make of a reachable one. -/
inductive FdManager.Reachable (E : Env K) : List (Option FdCtx) → Prop
  | ctor : FdManager.Reachable E FdManager.new
  | get (s : St K) (fd : Int) (auto_create : Bool) :
      FdManager.Reachable E s.m_datas →
      FdManager.Reachable E (FdManager.get E s fd auto_create).2.m_datas
  | del (s : St K) (fd : Int) :
      FdManager.Reachable E s.m_datas → FdManager.Reachable E (FdManager.del s fd).m_datas
  | setUserNonblock (m : List (Option FdCtx)) (i : Nat) (c : FdCtx) (v : Bool) :
      FdManager.Reachable E m → m.getD i none = some c →
      FdManager.Reachable E (m.set i (some (c.setUserNonblock v)))
  | setTimeout (m : List (Option FdCtx)) (i : Nat) (c : FdCtx) (type : Int) (v : Nat) :
      FdManager.Reachable E m → m.getD i none = some c →
      FdManager.Reachable E (m.set i (some (c.setTimeout type v)))

/-! ## The worker loop (`scheduler.cpp`) -/

/-- Modelled from the spec: the payload of a `ScheduleTask`.  The struct is
declared in `scheduler.h`, which is not among the sources; the design has "a
tagged record holding exactly one of {fiber handle, bare callable}".  Handles
are numbers. -/
inductive Work
  | fiber (id : Nat)
  | cb (id : Nat)
  deriving DecidableEq

/-- Modelled from the spec: a `ScheduleTask`, the payload and "an optional
target thread id (`-1` meaning any worker)".  With this type the assertion
`assert(it->fiber||it->cb)` of `Scheduler::run` holds for every queued task. -/
structure ScheduleTask where
  work : Work
  thread : Int
  deriving DecidableEq

/-- The scan of `Scheduler::run` (lines 103-121) from the iterator `it` on:
the argument list is the part of `m_tasks` from `it` to the end, the flag is
`tickle_me` so far.  The result is the local `task` (`none` while it is
reset), that part of the queue afterwards, and the final `tickle_me`.

`m_tasks` is declared in `scheduler.h`; an iterator is a position in the
sequence, so after `m_tasks.erase(it)` the position `it` designates the task
that followed the erased one, and `it != m_tasks.end()` says that one
exists. -/
def Scheduler.scan (thread_id : Int) :
    List ScheduleTask → Bool → Option ScheduleTask × List ScheduleTask × Bool
  | [], tickle_me => (none, [], tickle_me || false)
  | x :: rest, tickle_me =>
    if x.thread ≠ -1 ∧ x.thread ≠ thread_id then
      let r := Scheduler.scan thread_id rest true
      (r.1, x :: r.2.1, r.2.2)
    else (some x, rest, tickle_me || decide (rest ≠ []))

/-- The members of the scheduler that the dequeue step touches. -/
structure Scheduler where
  m_tasks : List ScheduleTask
  m_activeThreadCount : Nat
  deriving DecidableEq

/-- The dequeue step of one round of `Scheduler::run` (lines 98-122), under
the queue lock: the local `task`, `tickle_me`, and the scheduler after it. -/
def Scheduler.dequeue (thread_id : Int) (sch : Scheduler) :
    Option ScheduleTask × Bool × Scheduler :=
  let r := Scheduler.scan thread_id sch.m_tasks false
  (r.1, r.2.2,
    { m_tasks := r.2.1
      m_activeThreadCount :=
        if r.1.isSome then sch.m_activeThreadCount + 1 else sch.m_activeThreadCount })

/-- What a worker does after the dequeue step, in program order. -/
inductive RunAct
  | tickle
  | resume_fiber (id : Nat)
  | resume_cb (id : Nat)
  | resume_idle
  | leave
  deriving DecidableEq

/-- The rest of the round (lines 124-163): `tickle()` when `tickle_me`, then
the task's fiber unless it is `TERM`, or a fresh fiber for the callable, or
the idle branch, which leaves the loop when the idle fiber is `TERM`.
`fiberTerm id` and `idleTerm` are the `getState() == Fiber::TERM` tests. -/
def Scheduler.dispatch (task : Option ScheduleTask) (tickle_me : Bool)
    (fiberTerm : Nat → Bool) (idleTerm : Bool) : List RunAct :=
  (if tickle_me then [RunAct.tickle] else []) ++
    match task with
    | some ⟨Work.fiber id, _⟩ => if fiberTerm id then [] else [RunAct.resume_fiber id]
    | some ⟨Work.cb id, _⟩ => [RunAct.resume_cb id]
    | none => if idleTerm then [RunAct.leave] else [RunAct.resume_idle]

/-- One round of the loop of `Scheduler::run` on worker `thread_id`. -/
def Scheduler.round (thread_id : Int) (fiberTerm : Nat → Bool) (idleTerm : Bool)
    (sch : Scheduler) : List RunAct × Scheduler :=
  let d := Scheduler.dequeue thread_id sch
  (Scheduler.dispatch d.1 d.2.1 fiberTerm idleTerm, d.2.2)

/-! ## Reachable states of the hook layer -/

/-- The states a thread can be in: a fresh `FdManager`, and from a reachable
state whatever the rest of the process does to the hook flag, `errno`, the
kernel and the log, every operation of `FdManager`, every method of a stored
`FdCtx` that writes, and every hooked wrapper. -/
inductive Reachable (E : Env K) : St K → Prop
  | ctor (hook : Bool) (errno : Int) (kernel : K) (log : List Act) :
      Reachable E
        { t_hook_enable := hook, m_datas := FdManager.new, errno := errno, kernel := kernel,
          log := log }
  | outside (s : St K) (hook : Bool) (errno : Int) (kernel : K) (log : List Act) :
      Reachable E s →
      Reachable E { s with t_hook_enable := hook, errno := errno, kernel := kernel, log := log }
  | get (s : St K) (fd : Int) (auto_create : Bool) :
      Reachable E s → Reachable E (FdManager.get E s fd auto_create).2
  | del (s : St K) (fd : Int) : Reachable E s → Reachable E (FdManager.del s fd)
  | init (s : St K) (fd : Int) (c : FdCtx) :
      Reachable E s → s.m_datas.getD fd.toNat none = some c →
      Reachable E ((FdCtx.init E c s).2.2.store fd (FdCtx.init E c s).2.1)
  | setUserNonblock (s : St K) (fd : Int) (c : FdCtx) (v : Bool) :
      Reachable E s → s.m_datas.getD fd.toNat none = some c →
      Reachable E (s.store fd (c.setUserNonblock v))
  | setSysNonblock (s : St K) (fd : Int) (c : FdCtx) (v : Bool) :
      Reachable E s → s.m_datas.getD fd.toNat none = some c →
      Reachable E (s.store fd (c.setSysNonblock v))
  | setTimeout (s : St K) (fd : Int) (c : FdCtx) (type : Int) (v : Nat) :
      Reachable E s → s.m_datas.getD fd.toNat none = some c →
      Reachable E (s.store fd (c.setTimeout type v))
  | sleep (s : St K) (seconds : Nat) : Reachable E s → Reachable E (sleep E seconds s).2
  | usleep (s : St K) (usec : Nat) : Reachable E s → Reachable E (usleep E usec s).2
  | nanosleep (s : St K) (req rem tv_sec tv_nsec : Int) :
      Reachable E s → Reachable E (nanosleep E req rem tv_sec tv_nsec s).2
  | socket (s : St K) (domain type protocol : Int) :
      Reachable E s → Reachable E (socket E domain type protocol s).2
  | connect_with_timeout (s : St K) (fd addr addrlen : Int) (timeout_ms : Nat) :
      Reachable E s → Reachable E (connect_with_timeout E fd addr addrlen timeout_ms s).2
  | do_io (s : St K) (fd : Int) (sym : Sym) (event : Nat) (timeout_so : Int)
      (args : List Int) (fuel : Nat) (r : Int × St K) :
      Reachable E s → do_io E fd sym event timeout_so args fuel s = some r → Reachable E r.2
  | accept (s : St K) (sockfd addr addrlen : Int) (fuel : Nat) (r : Int × St K) :
      Reachable E s → accept E sockfd addr addrlen fuel s = some r → Reachable E r.2
  | close (s : St K) (fd : Int) : Reachable E s → Reachable E (close E fd s).2
  | fcntl (s : St K) (fd cmd arg : Int) : Reachable E s → Reachable E (fcntl E fd cmd arg s).2
  | ioctl (s : St K) (fd request arg argval : Int) :
      Reachable E s → Reachable E (ioctl E fd request arg argval s).2
  | getsockopt (s : St K) (sockfd level optname optval optlen : Int) :
      Reachable E s → Reachable E (getsockopt E sockfd level optname optval optlen s).2
  | setsockopt (s : St K) (sockfd level optname optval optlen tv_sec tv_usec : Int) :
      Reachable E s →
      Reachable E (setsockopt E sockfd level optname optval optlen tv_sec tv_usec s).2

/-! ## Concrete oracles and states, for evaluating the wrappers -/

/-- An oracle on a one-point kernel: an original symbol called as `c` returns
`ret c` and leaves `errno = err c e` when it found `errno = e`; every
successful `fstat` reports a socket iff `sock`; `addEvent` succeeds; a parked
fiber finds its condition timer fired iff `fired`; the thread has an
`IOManager`; `SO_ERROR` is `0`. -/
def testEnv (ret : Call → Int) (err : Call → Int → Int) (sock fired : Bool) : Env Unit :=
  { raw := fun c e k => (ret c, err c e, k)
    S_ISSOCK := fun _ _ => sock
    addEvent := fun _ _ e k => (0, e, k)
    resume := fun e k => (fired, e, k)
    hasIOManager := fun _ => true
    so_error := fun _ => 0 }

/-- A thread state with the given hook flag and table, `errno = 0`, empty log. -/
def testSt (hook : Bool) (m : List (Option FdCtx)) : St Unit :=
  { t_hook_enable := hook, m_datas := m, errno := 0, kernel := (), log := [] }

/-- The context `FdCtx(fd)` of a socket after `init`. -/
def sockCtx (fd : Int) : FdCtx :=
  { m_isInit := true, m_isSocket := true, m_sysNonblock := true, m_fd := fd }

/-- The constructor's table with a socket context in slot 5. -/
def testTable : List (Option FdCtx) := FdManager.new.set 5 (some (sockCtx 5))

/-- An oracle whose original symbols all fail with `EAGAIN` and under which a
parked fiber finds its condition timer fired. -/
def testEnvTimeout : Env Unit := testEnv (fun _ => -1) (fun _ _ => EAGAIN) true true

/-- As `testEnvTimeout`, but the fiber is resumed before the timer fires. -/
def testEnvReady : Env Unit := testEnv (fun _ => -1) (fun _ _ => EAGAIN) true false

/-- A hooked thread whose table has, in slot 5, a socket context with a
receive timeout of 200 ms. -/
def testStTimeout : St Unit :=
  testSt true (FdManager.new.set 5 (some ((sockCtx 5).setTimeout SO_RCVTIMEO 200)))

/-- An oracle whose original `accept` returns the new fd 7 and whose other
original symbols return `0`; `fstat` reports a socket. -/
def testEnvAccept : Env Unit :=
  testEnv (fun c => if c.sym = Sym.accept then 7 else 0) (fun _ e => e) true false

/-- A queue with a task pinned to thread 9, an unpinned callable, a task
pinned to thread 7 and another unpinned callable, in insertion order. -/
def testQueue : List ScheduleTask :=
  [⟨Work.fiber 1, 9⟩, ⟨Work.cb 2, -1⟩, ⟨Work.fiber 3, 7⟩, ⟨Work.cb 4, -1⟩]

/-- No context stored in the table has its `is_closed` flag set. -/
def NoClosed (m : List (Option FdCtx)) : Prop :=
  ∀ c : FdCtx, some c ∈ m → c.isClosed = false


/-! ## Basic facts -/

@[simp] theorem rawCall_m_datas (E : Env K) (c : Call) (s : St K) :
    (rawCall E c s).2.m_datas = s.m_datas := rfl

@[simp] theorem rawCall_hook (E : Env K) (c : Call) (s : St K) :
    (rawCall E c s).2.t_hook_enable = s.t_hook_enable := rfl

@[simp] theorem rawCall_log (E : Env K) (c : Call) (s : St K) :
    (rawCall E c s).2.log = s.log ++ [Act.raw c] := rfl

theorem FdCtx_init_m_datas (E : Env K) (c : FdCtx) (s : St K) :
    (FdCtx.init E c s).2.2.m_datas = s.m_datas := by
  unfold FdCtx.init
  dsimp only
  split_ifs <;> rfl

theorem FdCtx_init_m_fd (E : Env K) (c : FdCtx) (s : St K) :
    (FdCtx.init E c s).2.1.m_fd = c.m_fd := by
  unfold FdCtx.init
  dsimp only
  split_ifs <;> rfl

@[simp] theorem FdCtx_new_m_datas (E : Env K) (fd : Int) (s : St K) :
    (FdCtx.new E fd s).2.m_datas = s.m_datas := FdCtx_init_m_datas E _ s

@[simp] theorem FdCtx_new_m_fd (E : Env K) (fd : Int) (s : St K) :
    (FdCtx.new E fd s).1.m_fd = fd := FdCtx_init_m_fd E _ s

@[simp] theorem vector_resize_length (v : List (Option FdCtx)) (n : Nat) :
    (vector_resize v n).length = n := by
  simp only [vector_resize, List.length_append, List.length_take, List.length_replicate]
  omega

theorem vector_resize_getElem? (v : List (Option FdCtx)) (n i : Nat) (hn : v.length ≤ n)
    (hi : i < v.length) : (vector_resize v n)[i]? = v[i]? := by
  simp only [vector_resize]
  rw [List.take_of_length_le hn, List.getElem?_append_left hi]

/-- A lookup without `auto_create` is a read of the slot. -/
theorem FdManager_get_false (E : Env K) (s : St K) (fd : Int) :
    FdManager.get E s fd false = (if 0 ≤ fd then s.m_datas.getD fd.toNat none else none, s) := by
  unfold FdManager.get
  by_cases h1 : fd = -1
  · simp [h1]
  by_cases h2 : fd < 0
  · simp [h1, h2, not_le.mpr h2]
  simp only [h1, h2, if_false, if_true, or_true]
  have h3 : 0 ≤ fd := by omega
  simp only [h3, if_true]
  by_cases h4 : s.m_datas.length ≤ fd.toNat
  · simp only [h4, if_true, List.getD_eq_default _ _ h4]
  · simp only [h4, if_false]

theorem FdManager_create_length (E : Env K) (s : St K) (fd : Int) (h0 : 0 ≤ fd) :
    s.m_datas.length ≤ (FdManager.create E s fd).2.m_datas.length := by
  unfold FdManager.create
  simp only [FdCtx_new_m_datas, List.length_set]
  split_ifs with h
  · rw [vector_resize_length]
    omega
  · exact le_rfl

theorem FdManager_get_length (E : Env K) (s : St K) (fd : Int) (ac : Bool) :
    s.m_datas.length ≤ (FdManager.get E s fd ac).2.m_datas.length := by
  unfold FdManager.get
  split_ifs with h1 h2 h3 h4 h5 <;>
    first
    | exact le_rfl
    | exact FdManager_create_length E s fd (by omega)

theorem FdManager_del_length (s : St K) (fd : Int) :
    (FdManager.del s fd).m_datas.length = s.m_datas.length := by
  unfold FdManager.del
  split_ifs <;> simp

theorem Reachable_length (E : Env K) (m : List (Option FdCtx))
    (h : FdManager.Reachable E m) : 64 ≤ m.length := by
  induction h with
  | ctor => simp [FdManager.new]
  | get s fd ac _ ih => exact le_trans ih (FdManager_get_length E s fd ac)
  | del s fd _ ih => rw [FdManager_del_length]; exact ih
  | setUserNonblock m i c v _ _ ih => simpa using ih
  | setTimeout m i c type v _ _ ih => simpa using ih

/-- The constructor does not look at the table. -/
theorem FdCtx_init_congr (E : Env K) (c : FdCtx) (s : St K) (d : List (Option FdCtx)) :
    FdCtx.init E c { s with m_datas := d } =
      ((FdCtx.init E c s).1, (FdCtx.init E c s).2.1,
        { (FdCtx.init E c s).2.2 with m_datas := d }) := by
  unfold FdCtx.init
  dsimp only [rawCall]
  split_ifs <;> rfl

theorem FdCtx_new_fst_congr (E : Env K) (fd : Int) (s : St K) (d : List (Option FdCtx)) :
    (FdCtx.new E fd { s with m_datas := d }).1 = (FdCtx.new E fd s).1 := by
  unfold FdCtx.new
  rw [FdCtx_init_congr]

/-- The creating branch of `get`: the slot is empty or beyond the table. -/
theorem FdManager_get_true_absent (E : Env K) (s : St K) (fd : Int) (h0 : 0 ≤ fd)
    (hn : s.m_datas.getD fd.toNat none = none) :
    FdManager.get E s fd true =
      (some (FdCtx.new E fd s).1,
        { (FdCtx.new E fd { s with m_datas :=
              if s.m_datas.length ≤ fd.toNat then vector_resize s.m_datas (fd * 3 / 2).toNat
              else s.m_datas }).2 with
          m_datas := (if s.m_datas.length ≤ fd.toNat then
              vector_resize s.m_datas (fd * 3 / 2).toNat else s.m_datas).set fd.toNat
                (some (FdCtx.new E fd s).1) }) := by
  unfold FdManager.get FdManager.create
  have h1 : ¬ fd = -1 := by omega
  have h2 : ¬ fd < 0 := by omega
  simp only [h1, h2, if_false, hn, Option.isSome_none, Bool.false_eq_true, or_self,
    FdCtx_new_m_datas, FdCtx_new_fst_congr, Bool.true_eq_false]
  split_ifs <;> rfl

theorem FdManager_get_true_present (E : Env K) (s : St K) (fd : Int) (h0 : 0 ≤ fd)
    (c : FdCtx) (hc : s.m_datas.getD fd.toNat none = some c) :
    FdManager.get E s fd true = (some c, s) := by
  unfold FdManager.get
  have h1 : ¬ fd = -1 := by omega
  have h2 : ¬ fd < 0 := by omega
  have h3 : fd.toNat < s.m_datas.length := by
    by_contra h
    rw [List.getD_eq_default _ _ (not_lt.mp h)] at hc
    exact Option.noConfusion hc
  simp only [h1, h2, not_le.mpr h3, if_false, hc, Option.isSome_some, true_or, if_true]

/-- C9: for a table of the `FdManager` and `fd >= 0`, `get(fd, false)` changes
nothing and returns the slot's entry (null beyond the table or on an empty
slot); `get(fd, true)` returns a stored entry unchanged, and otherwise
constructs `FdCtx(fd)`, stores it at index `fd`, which lies inside the table
afterwards, and returns it, so that `get(fd, false)` then returns the same
entry; `get(-1, _)` is null. -/
theorem FdManager_get_spec (E : Env K) (s : St K) (fd : Int)
    (hR : FdManager.Reachable E s.m_datas) (hfd : 0 ≤ fd) :
    FdManager.get E s fd false = (s.m_datas.getD fd.toNat none, s) ∧
    (∀ c, s.m_datas.getD fd.toNat none = some c → FdManager.get E s fd true = (some c, s)) ∧
    (s.m_datas.getD fd.toNat none = none →
      (FdManager.get E s fd true).1 = some (FdCtx.new E fd s).1 ∧
      (FdCtx.new E fd s).1.m_fd = fd ∧
      fd.toNat < (FdManager.get E s fd true).2.m_datas.length ∧
      (FdManager.get E s fd true).2.m_datas.getD fd.toNat none = some (FdCtx.new E fd s).1 ∧
      FdManager.get E (FdManager.get E s fd true).2 fd false =
        (some (FdCtx.new E fd s).1, (FdManager.get E s fd true).2)) ∧
    (∀ ac, FdManager.get E s (-1) ac = (none, s)) := by
  have h64 := Reachable_length E _ hR
  refine ⟨?_, ?_, ?_, ?_⟩
  · rw [FdManager_get_false, if_pos hfd]
  · intro c hc
    exact FdManager_get_true_present E s fd hfd c hc
  · intro hn
    have hlen : fd.toNat < (FdManager.get E s fd true).2.m_datas.length := by
      rw [FdManager_get_true_absent E s fd hfd hn]
      simp only [List.length_set]
      split_ifs with h
      · rw [vector_resize_length]
        omega
      · omega
    have hget : (FdManager.get E s fd true).2.m_datas.getD fd.toNat none
        = some (FdCtx.new E fd s).1 := by
      have hlen2 := hlen
      rw [FdManager_get_true_absent E s fd hfd hn] at hlen2 ⊢
      simp only [List.length_set] at hlen2
      simp [List.getD_eq_getElem?_getD, List.getElem?_set_self, hlen2]
    refine ⟨?_, FdCtx_new_m_fd E fd s, hlen, hget, ?_⟩
    · rw [FdManager_get_true_absent E s fd hfd hn]
    · rw [FdManager_get_false, if_pos hfd, hget]
  · intro ac
    simp [FdManager.get]

theorem FdManager_get_spec_witness :
    FdManager.Reachable (testEnv (fun _ => 0) (fun _ e => e) true false)
      (testSt true FdManager.new).m_datas ∧ (0 : Int) ≤ 7 ∧
    FdManager.get (testEnv (fun _ => 0) (fun _ e => e) true false)
      (testSt true FdManager.new) 7 false
      = ((testSt true FdManager.new).m_datas.getD (7 : Int).toNat none,
          testSt true FdManager.new) :=
  ⟨FdManager.Reachable.ctor, by decide,
    (FdManager_get_spec (testEnv (fun _ => 0) (fun _ e => e) true false)
      (testSt true FdManager.new) 7 FdManager.Reachable.ctor (by decide)).1⟩

/-- C10: a table of the `FdManager` has at least 64 slots, neither `get` nor
`del` makes it shorter, and `get(fd, true)` with `fd` at or beyond the size
resizes it to `floor(fd * 1.5)` slots, which is `max(floor(fd * 1.5), fd + 1)`
there, keeping every slot that existed before. -/
theorem FdManager_get_growth (E : Env K) (s : St K)
    (hR : FdManager.Reachable E s.m_datas) :
    64 ≤ s.m_datas.length ∧
    (∀ fd ac, s.m_datas.length ≤ (FdManager.get E s fd ac).2.m_datas.length) ∧
    (∀ fd, (FdManager.del s fd).m_datas.length = s.m_datas.length) ∧
    (∀ fd : Int, (s.m_datas.length : Int) ≤ fd →
      ((FdManager.get E s fd true).2.m_datas.length : Int) = max (fd * 3 / 2) (fd + 1) ∧
      ∀ i, i < s.m_datas.length →
        (FdManager.get E s fd true).2.m_datas[i]? = s.m_datas[i]?) := by
  have h64 := Reachable_length E _ hR
  refine ⟨h64, FdManager_get_length E s, FdManager_del_length s, ?_⟩
  intro fd hfd
  have h0 : 0 ≤ fd := by omega
  have hle : s.m_datas.length ≤ fd.toNat := by omega
  have hn : s.m_datas.getD fd.toNat none = none := List.getD_eq_default _ _ hle
  rw [FdManager_get_true_absent E s fd h0 hn]
  simp only [if_pos hle, List.length_set, vector_resize_length]
  constructor
  · rw [Int.toNat_of_nonneg (by omega)]
    rw [max_eq_left (by omega)]
  · intro i hi
    rw [List.getElem?_set_ne (by omega)]
    exact vector_resize_getElem? _ _ _ (by omega) hi

theorem FdManager_get_growth_witness :
    FdManager.Reachable (testEnv (fun _ => 0) (fun _ e => e) true false)
      (testSt true FdManager.new).m_datas ∧
    ((FdManager.get (testEnv (fun _ => 0) (fun _ e => e) true false)
      (testSt true FdManager.new) 100 true).2.m_datas.length : Int)
        = max (100 * 3 / 2) (100 + 1) :=
  ⟨FdManager.Reachable.ctor,
    ((FdManager_get_growth (testEnv (fun _ => 0) (fun _ e => e) true false)
      (testSt true FdManager.new) FdManager.Reachable.ctor).2.2.2 100 (by decide)).1⟩

/-! ## The `O_NONBLOCK` bit -/

theorem O_NONBLOCK_testBit (i : Nat) : O_NONBLOCK.testBit i = decide (i = 11) := by
  show Nat.testBit (2 ^ 11) i = _
  rw [Nat.testBit_two_pow]
  simp [eq_comm]

/-- The test `(a & O_NONBLOCK) != 0` says that bit 11 of `a` is set. -/
theorem land_O_NONBLOCK_ne_zero (a : Int) :
    Int.land a O_NONBLOCK ≠ 0 ↔ a.testBit 11 = true := by
  have hb : ∀ i, (Int.land a O_NONBLOCK).testBit i = (a.testBit i && decide (i = 11)) := by
    intro i
    rw [Int.testBit_land, O_NONBLOCK_testBit]
  have hnn : ∃ n : Nat, Int.land a O_NONBLOCK = (n : Int) := by
    cases a with
    | ofNat m => exact ⟨m &&& 2048, rfl⟩
    | negSucc m => exact ⟨Nat.ldiff 2048 m, rfl⟩
  obtain ⟨n, hn⟩ := hnn
  rw [hn] at hb ⊢
  have hb2 : ∀ i, n.testBit i = (a.testBit i && decide (i = 11)) := hb
  constructor
  · intro h0
    by_contra hf
    apply h0
    have : n = 0 := by
      apply Nat.eq_of_testBit_eq
      intro i
      rw [hb2 i, Nat.zero_testBit]
      by_cases hi : i = 11
      · subst hi
        simp [hf]
      · simp [hi]
    simp [this]
  · intro h1 h0
    have h2 := hb2 11
    have : n = 0 := by exact_mod_cast h0
    rw [this, Nat.zero_testBit, h1] at h2
    simp at h2

/-- The flag word `F_SETFL` hands to the original `fcntl`. -/
theorem setfl_arg_testBit (arg : Int) (sys : Bool) (i : Nat) :
    (if sys then Int.lor arg O_NONBLOCK else Int.land arg (Int.lnot O_NONBLOCK)).testBit i
      = if O_NONBLOCK.testBit i then sys else arg.testBit i := by
  cases sys <;>
    simp only [if_true, if_false, Bool.false_eq_true, Int.testBit_lor, Int.testBit_land,
      Int.testBit_lnot] <;>
    cases O_NONBLOCK.testBit i <;> simp

theorem store_getD (s : St K) (fd : Int) (c c1 : FdCtx)
    (h : s.m_datas.getD fd.toNat none = some c) :
    (s.store fd c1).m_datas.getD fd.toNat none = some c1 := by
  have h3 : fd.toNat < s.m_datas.length := by
    by_contra hlt
    rw [List.getD_eq_default _ _ (not_lt.mp hlt)] at h
    exact Option.noConfusion h
  simp [St.store, List.getD_eq_getElem?_getD, List.getElem?_set_self, h3]

/-- A context is found by `get(fd)` exactly when `fd >= 0` and the slot holds
it. -/
theorem FdManager_get_eq_some (E : Env K) (s : St K) (fd : Int) (c : FdCtx) :
    (FdManager.get E s fd false).1 = some c ↔
      0 ≤ fd ∧ s.m_datas.getD fd.toNat none = some c := by
  rw [FdManager_get_false]
  by_cases h : 0 ≤ fd <;> simp [h]

/-- The `F_SETFL` branch on a socket context that is not closed, in closed
form. -/
theorem fcntl_F_SETFL_eq (E : Env K) (s : St K) (fd arg : Int) (ctx : FdCtx)
    (hctx : (FdManager.get E s fd false).1 = some ctx)
    (hsock : ctx.isSocket = true) (hopen : ctx.isClosed = false) :
    fcntl E fd F_SETFL arg s =
      rawCall E ⟨Sym.fcntl, [fd, F_SETFL, if ctx.getSysNonblock then Int.lor arg O_NONBLOCK
        else Int.land arg (Int.lnot O_NONBLOCK)]⟩
        (s.store fd (ctx.setUserNonblock (decide (Int.land arg O_NONBLOCK ≠ 0)))) := by
  have hg := (FdManager_get_eq_some E s fd ctx).mp hctx
  have hfd : FdManager.get E s fd false = (some ctx, s) := by
    rw [FdManager_get_false, if_pos hg.1, hg.2]
  unfold fcntl
  simp only [if_true, hfd, hsock, hopen, Bool.false_eq_true, or_self, if_false]
  rfl

theorem fcntl_F_SETFL_slot (E : Env K) (s : St K) (fd arg : Int) (ctx : FdCtx)
    (hctx : (FdManager.get E s fd false).1 = some ctx)
    (hsock : ctx.isSocket = true) (hopen : ctx.isClosed = false) :
    (fcntl E fd F_SETFL arg s).2.m_datas.getD fd.toNat none =
      some { ctx with m_userNonblock := decide (Int.land arg O_NONBLOCK ≠ 0) } := by
  rw [fcntl_F_SETFL_eq E s fd arg ctx hctx hsock hopen, rawCall_m_datas]
  exact store_getD s fd ctx _ ((FdManager_get_eq_some E s fd ctx).mp hctx).2

/-- C3: on a socket context that is not closed, `fcntl(fd, F_SETFL, arg)`
stores `user_nonblock = ((arg & O_NONBLOCK) != 0)` in the context, leaves
`sys_nonblock` and the rest of the context alone, and calls the original
`fcntl` once, with a flag word that has the `O_NONBLOCK` bit equal to
`sys_nonblock` and every other bit equal to the bit of `arg`. -/
theorem fcntl_F_SETFL_spec (E : Env K) (s : St K) (fd arg : Int) (ctx : FdCtx)
    (hctx : (FdManager.get E s fd false).1 = some ctx)
    (hsock : ctx.isSocket = true) (hopen : ctx.isClosed = false) :
    ∃ arg1 : Int,
      (∀ i, arg1.testBit i = if O_NONBLOCK.testBit i then ctx.getSysNonblock else arg.testBit i) ∧
      fcntl E fd F_SETFL arg s =
        rawCall E ⟨Sym.fcntl, [fd, F_SETFL, arg1]⟩
          (s.store fd (ctx.setUserNonblock (decide (Int.land arg O_NONBLOCK ≠ 0)))) ∧
      (fcntl E fd F_SETFL arg s).2.log = s.log ++ [Act.raw ⟨Sym.fcntl, [fd, F_SETFL, arg1]⟩] ∧
      (fcntl E fd F_SETFL arg s).2.m_datas.getD fd.toNat none =
        some { ctx with m_userNonblock := decide (Int.land arg O_NONBLOCK ≠ 0) } ∧
      ({ ctx with m_userNonblock := decide (Int.land arg O_NONBLOCK ≠ 0) } : FdCtx).getSysNonblock
        = ctx.getSysNonblock := by
  have hf := fcntl_F_SETFL_eq E s fd arg ctx hctx hsock hopen
  refine ⟨if ctx.getSysNonblock then Int.lor arg O_NONBLOCK
    else Int.land arg (Int.lnot O_NONBLOCK), setfl_arg_testBit arg _, hf, ?_,
    fcntl_F_SETFL_slot E s fd arg ctx hctx hsock hopen, rfl⟩
  rw [hf]
  rfl

theorem fcntl_F_SETFL_spec_witness :
    (FdManager.get (testEnv (fun _ => 0) (fun _ e => e) true false)
      (testSt true testTable) 5 false).1 = some (sockCtx 5) ∧
    (sockCtx 5).isSocket = true ∧ (sockCtx 5).isClosed = false ∧
    ∃ arg1 : Int,
      (∀ i, arg1.testBit i =
        if O_NONBLOCK.testBit i then (sockCtx 5).getSysNonblock else (0 : Int).testBit i) ∧
      fcntl (testEnv (fun _ => 0) (fun _ e => e) true false) 5 F_SETFL 0
          (testSt true testTable) =
        rawCall (testEnv (fun _ => 0) (fun _ e => e) true false)
          ⟨Sym.fcntl, [5, F_SETFL, arg1]⟩
          ((testSt true testTable).store 5
            ((sockCtx 5).setUserNonblock (decide (Int.land 0 O_NONBLOCK ≠ 0)))) ∧
      (fcntl (testEnv (fun _ => 0) (fun _ e => e) true false) 5 F_SETFL 0
          (testSt true testTable)).2.log =
        (testSt true testTable).log ++ [Act.raw ⟨Sym.fcntl, [5, F_SETFL, arg1]⟩] ∧
      (fcntl (testEnv (fun _ => 0) (fun _ e => e) true false) 5 F_SETFL 0
          (testSt true testTable)).2.m_datas.getD (5 : Int).toNat none =
        some { sockCtx 5 with m_userNonblock := decide (Int.land 0 O_NONBLOCK ≠ 0) } ∧
      ({ sockCtx 5 with m_userNonblock := decide (Int.land 0 O_NONBLOCK ≠ 0) } :
        FdCtx).getSysNonblock = (sockCtx 5).getSysNonblock :=
  ⟨by decide, rfl, rfl,
    fcntl_F_SETFL_spec (testEnv (fun _ => 0) (fun _ e => e) true false)
      (testSt true testTable) 5 0 (sockCtx 5) (by decide) rfl rfl⟩

/-- The flag word `F_GETFL` returns for a socket context. -/
theorem getfl_result_testBit (raw : Int) (user : Bool) (i : Nat) :
    (if user then Int.lor raw O_NONBLOCK else Int.land raw (Int.lnot O_NONBLOCK)).testBit i
      = if O_NONBLOCK.testBit i then user else raw.testBit i :=
  setfl_arg_testBit raw user i

/-- C2: on a socket context that is not closed, after
`fcntl(fd, F_SETFL, arg)` the word returned by `fcntl(fd, F_GETFL)` has the
`O_NONBLOCK` bit of `arg` and, on every other bit, the bit the original
`F_GETFL` call returned; so it has `O_NONBLOCK` set after `F_SETFL O_NONBLOCK`
and clear after `F_SETFL 0`, whatever the original call reports. -/
theorem fcntl_F_SETFL_F_GETFL (E : Env K) (s : St K) (fd arg arg2 : Int) (ctx : FdCtx)
    (hctx : (FdManager.get E s fd false).1 = some ctx)
    (hsock : ctx.isSocket = true) (hopen : ctx.isClosed = false) :
    (∀ i, (fcntl E fd F_GETFL arg2 (fcntl E fd F_SETFL arg s).2).1.testBit i =
      if O_NONBLOCK.testBit i then arg.testBit i
      else (E.raw ⟨Sym.fcntl, [fd, F_GETFL]⟩ (fcntl E fd F_SETFL arg s).2.errno
        (fcntl E fd F_SETFL arg s).2.kernel).1.testBit i) ∧
    (Int.land (fcntl E fd F_GETFL arg2 (fcntl E fd F_SETFL arg s).2).1 O_NONBLOCK ≠ 0 ↔
      Int.land arg O_NONBLOCK ≠ 0) ∧
    (arg = O_NONBLOCK →
      Int.land (fcntl E fd F_GETFL arg2 (fcntl E fd F_SETFL arg s).2).1 O_NONBLOCK ≠ 0) ∧
    (arg = 0 →
      Int.land (fcntl E fd F_GETFL arg2 (fcntl E fd F_SETFL arg s).2).1 O_NONBLOCK = 0) := by
  have hslot := fcntl_F_SETFL_slot E s fd arg ctx hctx hsock hopen
  have hg := (FdManager_get_eq_some E s fd ctx).mp hctx
  generalize (fcntl E fd F_SETFL arg s).2 = s1 at hslot ⊢
  have hget : FdManager.get E (rawCall E ⟨Sym.fcntl, [fd, F_GETFL]⟩ s1).2 fd false =
      (some { ctx with m_userNonblock := decide (Int.land arg O_NONBLOCK ≠ 0) },
        (rawCall E ⟨Sym.fcntl, [fd, F_GETFL]⟩ s1).2) := by
    rw [FdManager_get_false, if_pos hg.1, rawCall_m_datas, hslot]
  have hres : (fcntl E fd F_GETFL arg2 s1).1 =
      if decide (Int.land arg O_NONBLOCK ≠ 0) = true then
        Int.lor (E.raw ⟨Sym.fcntl, [fd, F_GETFL]⟩ s1.errno s1.kernel).1 O_NONBLOCK
      else Int.land (E.raw ⟨Sym.fcntl, [fd, F_GETFL]⟩ s1.errno s1.kernel).1
        (Int.lnot O_NONBLOCK) := by
    unfold fcntl
    have hne : ¬ F_GETFL = F_SETFL := by decide
    simp only [hne, if_false, if_true, hget]
    have h1 : ({ ctx with m_userNonblock := decide (Int.land arg O_NONBLOCK ≠ 0) } :
        FdCtx).isClosed = false := hopen
    have h2 : ({ ctx with m_userNonblock := decide (Int.land arg O_NONBLOCK ≠ 0) } :
        FdCtx).isSocket = true := hsock
    simp only [h1, h2, Bool.false_eq_true, Bool.true_eq_false, or_self, if_false]
    split_ifs with h3 h4 h4
    · rfl
    · exact absurd h3 h4
    · exact absurd h4 h3
    · rfl
  have hbits : ∀ i, (fcntl E fd F_GETFL arg2 s1).1.testBit i =
      if O_NONBLOCK.testBit i then arg.testBit i
      else (E.raw ⟨Sym.fcntl, [fd, F_GETFL]⟩ s1.errno s1.kernel).1.testBit i := by
    intro i
    rw [hres, getfl_result_testBit, O_NONBLOCK_testBit]
    by_cases hi : i = 11
    · subst hi
      simp only [decide_True, if_true]
      by_cases hb : arg.testBit 11 = true
      · rw [hb]
        exact decide_eq_true ((land_O_NONBLOCK_ne_zero arg).mpr hb)
      · rw [Bool.not_eq_true] at hb
        rw [hb]
        apply decide_eq_false
        rw [land_O_NONBLOCK_ne_zero, hb]
        simp
    · simp [hi]
  have hiff : Int.land (fcntl E fd F_GETFL arg2 s1).1 O_NONBLOCK ≠ 0 ↔
      Int.land arg O_NONBLOCK ≠ 0 := by
    rw [land_O_NONBLOCK_ne_zero, land_O_NONBLOCK_ne_zero, hbits 11, O_NONBLOCK_testBit]
    simp
  refine ⟨hbits, hiff, ?_, ?_⟩
  · intro ha
    rw [hiff, ha]
    decide
  · intro ha
    by_contra hc
    rw [← ne_eq, hiff, ha] at hc
    exact hc (by decide)

theorem fcntl_F_SETFL_F_GETFL_witness :
    (FdManager.get (testEnv (fun _ => 0) (fun _ e => e) true false)
      (testSt true testTable) 5 false).1 = some (sockCtx 5) ∧
    (sockCtx 5).isSocket = true ∧ (sockCtx 5).isClosed = false ∧
    Int.land (fcntl (testEnv (fun _ => 0) (fun _ e => e) true false) 5 F_GETFL 0
      (fcntl (testEnv (fun _ => 0) (fun _ e => e) true false) 5 F_SETFL O_NONBLOCK
        (testSt true testTable)).2).1 O_NONBLOCK ≠ 0 :=
  ⟨by decide, rfl, rfl,
    (fcntl_F_SETFL_F_GETFL (testEnv (fun _ => 0) (fun _ e => e) true false)
      (testSt true testTable) 5 O_NONBLOCK 0 (sockCtx 5) (by decide) rfl rfl).2.2.1 rfl⟩

/-! ## The I/O template -/

theorem FdManager_get_false_snd (E : Env K) (s : St K) (fd : Int) :
    (FdManager.get E s fd false).2 = s := by
  rw [FdManager_get_false]

/-- C5: with the hook flag set, `do_io` on an fd that has no context, or whose
context is open and is not a socket or has `user_nonblock`, is one call of the
original function with the caller's arguments: it returns that call's result
and `errno` (whatever they are, `EAGAIN` and `EINTR` included), and the log
gains that call and nothing else, so no event and no timer is registered. -/
theorem do_io_not_eligible (E : Env K) (s : St K) (fd : Int) (sym : Sym) (event : Nat)
    (timeout_so : Int) (args : List Int) (fuel : Nat)
    (hhook : s.t_hook_enable = true)
    (h : (FdManager.get E s fd false).1 = none ∨
      ∃ ctx, (FdManager.get E s fd false).1 = some ctx ∧ ctx.isClosed = false ∧
        (ctx.isSocket = false ∨ ctx.getUserNonblock = true)) :
    do_io E fd sym event timeout_so args fuel s = some (rawCall E ⟨sym, fd :: args⟩ s) ∧
    (rawCall E ⟨sym, fd :: args⟩ s).1 = (E.raw ⟨sym, fd :: args⟩ s.errno s.kernel).1 ∧
    (rawCall E ⟨sym, fd :: args⟩ s).2.errno = (E.raw ⟨sym, fd :: args⟩ s.errno s.kernel).2.1 ∧
    (rawCall E ⟨sym, fd :: args⟩ s).2.log = s.log ++ [Act.raw ⟨sym, fd :: args⟩] := by
  refine ⟨?_, rfl, rfl, rfl⟩
  unfold do_io
  simp only [hhook, Bool.true_eq_false, if_false, FdManager_get_false_snd]
  rcases h with h | ⟨ctx, hc, hopen, hns⟩
  · rw [h]
  · rw [hc]
    simp only [hopen, Bool.false_eq_true, if_false]
    rw [if_pos hns]

theorem do_io_not_eligible_witness :
    (testSt true testTable).t_hook_enable = true ∧
    ((FdManager.get (testEnv (fun _ => -1) (fun _ _ => EAGAIN) true false)
        (testSt true testTable) 9 false).1 = none ∨
      ∃ ctx, (FdManager.get (testEnv (fun _ => -1) (fun _ _ => EAGAIN) true false)
        (testSt true testTable) 9 false).1 = some ctx ∧ ctx.isClosed = false ∧
        (ctx.isSocket = false ∨ ctx.getUserNonblock = true)) ∧
    do_io (testEnv (fun _ => -1) (fun _ _ => EAGAIN) true false) 9 Sym.read READ SO_RCVTIMEO
        [0, 1] 0 (testSt true testTable)
      = some (rawCall (testEnv (fun _ => -1) (fun _ _ => EAGAIN) true false)
          ⟨Sym.read, [9, 0, 1]⟩ (testSt true testTable)) :=
  ⟨rfl, Or.inl (by decide),
    (do_io_not_eligible (testEnv (fun _ => -1) (fun _ _ => EAGAIN) true false)
      (testSt true testTable) 9 Sym.read READ SO_RCVTIMEO [0, 1] 0 rfl
      (Or.inl (by decide))).1⟩

/-- C8: hooked `connect` on an open socket context without `user_nonblock`:
when the original `connect` returns `0`, or fails with an `errno` other than
`EINPROGRESS`, the wrapper is that one call: it returns its result, leaves its
`errno`, and the log gains the call and nothing else (no event, no timer, no
yield).  This holds whatever the hook flag is. -/
theorem connect_immediate (E : Env K) (s : St K) (fd addr addrlen : Int) (ctx : FdCtx)
    (hctx : (FdManager.get E s fd false).1 = some ctx)
    (hopen : ctx.isClosed = false) (hsock : ctx.isSocket = true)
    (huser : ctx.getUserNonblock = false)
    (hraw : (rawCall E ⟨Sym.connect, [fd, addr, addrlen]⟩ s).1 = 0 ∨
      ((rawCall E ⟨Sym.connect, [fd, addr, addrlen]⟩ s).1 = -1 ∧
        (rawCall E ⟨Sym.connect, [fd, addr, addrlen]⟩ s).2.errno ≠ EINPROGRESS)) :
    connect E fd addr addrlen s = rawCall E ⟨Sym.connect, [fd, addr, addrlen]⟩ s ∧
    (connect E fd addr addrlen s).1 =
      (E.raw ⟨Sym.connect, [fd, addr, addrlen]⟩ s.errno s.kernel).1 ∧
    (connect E fd addr addrlen s).2.errno =
      (E.raw ⟨Sym.connect, [fd, addr, addrlen]⟩ s.errno s.kernel).2.1 ∧
    (connect E fd addr addrlen s).2.log =
      s.log ++ [Act.raw ⟨Sym.connect, [fd, addr, addrlen]⟩] := by
  have key : connect E fd addr addrlen s = rawCall E ⟨Sym.connect, [fd, addr, addrlen]⟩ s := by
    unfold connect connect_with_timeout
    by_cases hh : s.t_hook_enable = false
    · simp only [hh, if_true]
    · simp only [hh, if_false, FdManager_get_false_snd, hctx, hopen, hsock, huser,
        Bool.false_eq_true, Bool.true_eq_false]
      rcases hraw with h0 | ⟨h1, h2⟩
      · rw [if_pos h0]
        exact Prod.ext h0.symm rfl
      · have hne : ¬ (rawCall E ⟨Sym.connect, [fd, addr, addrlen]⟩ s).1 = 0 := by
          rw [h1]
          decide
        rw [if_neg hne, if_pos (Or.inr h2)]
  refine ⟨key, ?_, ?_, ?_⟩ <;> rw [key] <;> rfl

theorem connect_immediate_witness :
    (FdManager.get (testEnv (fun _ => 0) (fun _ e => e) true false)
      (testSt true testTable) 5 false).1 = some (sockCtx 5) ∧
    (sockCtx 5).isClosed = false ∧ (sockCtx 5).isSocket = true ∧
    (sockCtx 5).getUserNonblock = false ∧
    ((rawCall (testEnv (fun _ => 0) (fun _ e => e) true false) ⟨Sym.connect, [5, 0, 16]⟩
        (testSt true testTable)).1 = 0 ∨
      ((rawCall (testEnv (fun _ => 0) (fun _ e => e) true false) ⟨Sym.connect, [5, 0, 16]⟩
        (testSt true testTable)).1 = -1 ∧
        (rawCall (testEnv (fun _ => 0) (fun _ e => e) true false) ⟨Sym.connect, [5, 0, 16]⟩
          (testSt true testTable)).2.errno ≠ EINPROGRESS)) ∧
    connect (testEnv (fun _ => 0) (fun _ e => e) true false) 5 0 16 (testSt true testTable)
      = rawCall (testEnv (fun _ => 0) (fun _ e => e) true false) ⟨Sym.connect, [5, 0, 16]⟩
          (testSt true testTable) :=
  ⟨by decide, rfl, rfl, rfl, Or.inl rfl,
    (connect_immediate (testEnv (fun _ => 0) (fun _ e => e) true false)
      (testSt true testTable) 5 0 16 (sockCtx 5) (by decide) rfl rfl rfl (Or.inl rfl)).1⟩

theorem emit_log (s : St K) (a : Act) : (s.emit a).log = s.log ++ [a] := rfl

theorem addEvent_log (E : Env K) (fd : Int) (event : Nat) (s : St K) :
    (addEvent E fd event s).2.log = s.log ++ [Act.addEvent fd event] := rfl

/-- What `yield` returns for a fresh `timer_info`: it comes back with
`cancelled = ETIMEDOUT` after a `cancelEvent` of the timer action, or
untouched. -/
theorem yield_fresh (E : Env K) (fd : Int) (event : Nat) (timer : Bool) (s : St K) :
    ((yield E fd event timer {} s).1.cancelled = ETIMEDOUT ∧
      (yield E fd event timer {} s).2.log =
        s.log ++ [Act.yield, Act.cancelEvent fd event]) ∨
    ((yield E fd event timer {} s).1 = {} ∧
      (yield E fd event timer {} s).2.log = s.log ++ [Act.yield]) := by
  unfold yield
  dsimp only
  split_ifs with h
  · left
    simp [timeout_action, St.emit]
  · right
    exact ⟨rfl, rfl⟩

theorem yield_log (E : Env K) (fd : Int) (event : Nat) (timer : Bool) (t : timer_info)
    (s : St K) : ∃ rest, (yield E fd event timer t s).2.log = s.log ++ rest := by
  unfold yield
  dsimp only
  split_ifs with h
  · unfold timeout_action
    dsimp only
    split_ifs
    · exact ⟨_, rfl⟩
    · exact ⟨[Act.yield, Act.cancelEvent fd event], by simp [St.emit]⟩
  · exact ⟨_, rfl⟩

theorem do_io_wait_log (E : Env K) (fd : Int) (event : Nat) (timeout : Nat) (t : timer_info)
    (s : St K) :
    (∀ res, do_io_wait E fd event timeout t s = Sum.inl res → s.log <+: res.2.log) ∧
    (∀ next, do_io_wait E fd event timeout t s = Sum.inr next → s.log <+: next.2.log) := by
  unfold do_io_wait
  dsimp only
  constructor <;> intro x hx <;> split_ifs at hx with h1 h2 h3 <;> cases hx <;>
    first
    | (obtain ⟨rest, hr⟩ := yield_log E fd event (decide (timeout ≠ UINT64_MAX)) t
        (addEvent E fd event (s.emit (Act.addConditionTimer timeout fd event))).2
       simp only [emit_log, addEvent_log, hr, List.append_assoc]
       exact List.prefix_append _ _)
    | (obtain ⟨rest, hr⟩ := yield_log E fd event (decide (timeout ≠ UINT64_MAX)) t
        (addEvent E fd event s).2
       simp only [emit_log, addEvent_log, hr, List.append_assoc]
       exact List.prefix_append _ _)

theorem call_while_EINTR_prefix (E : Env K) (c : Call) (fuel : Nat) (s : St K)
    (r : Int × St K) (h : call_while_EINTR E c fuel s = some r) :
    s.log ++ [Act.raw c] <+: r.2.log := by
  induction fuel generalizing s with
  | zero => simp [call_while_EINTR] at h
  | succ n ih =>
    unfold call_while_EINTR at h
    dsimp only at h
    split_ifs at h with hc
    · exact List.IsPrefix.trans (List.prefix_append _ _) (ih _ h)
    · cases h
      exact List.prefix_rfl

/-- Whatever `do_io` returns from the label `retry` on, it has called the
original function first. -/
theorem do_io_retry_prefix (E : Env K) (fd : Int) (c : Call) (event : Nat) (timeout : Nat)
    (fuel : Nat) (t : timer_info) (s : St K) (r : Int × St K)
    (h : do_io_retry E fd c event timeout fuel t s = some r) :
    s.log ++ [Act.raw c] <+: r.2.log := by
  induction fuel generalizing t s with
  | zero => simp [do_io_retry] at h
  | succ n ih =>
    unfold do_io_retry at h
    cases hc : call_while_EINTR E c (n + 1) s with
    | none => simp [hc] at h
    | some r1 =>
      have hp := call_while_EINTR_prefix E c (n + 1) s r1 hc
      simp only [hc] at h
      by_cases h1 : r1.1 = -1 ∧ r1.2.errno = EAGAIN
      · rw [if_pos h1] at h
        cases hw : do_io_wait E fd event timeout t r1.2 with
        | inl res =>
          simp only [hw] at h
          cases h
          exact hp.trans ((do_io_wait_log E fd event timeout t r1.2).1 _ hw)
        | inr next =>
          simp only [hw] at h
          exact hp.trans (((do_io_wait_log E fd event timeout t r1.2).2 _ hw).trans
            ((List.prefix_append _ _).trans (ih _ _ h)))
      · rw [if_neg h1] at h
        cases h
        exact hp

/-- The template on an eligible socket context is the retry loop. -/
theorem do_io_eligible (E : Env K) (s : St K) (fd : Int) (sym : Sym) (event : Nat)
    (timeout_so : Int) (args : List Int) (fuel : Nat) (ctx : FdCtx)
    (hhook : s.t_hook_enable = true)
    (hctx : (FdManager.get E s fd false).1 = some ctx)
    (hopen : ctx.isClosed = false) (hsock : ctx.isSocket = true)
    (huser : ctx.getUserNonblock = false) :
    do_io E fd sym event timeout_so args fuel s =
      do_io_retry E fd ⟨sym, fd :: args⟩ event (ctx.getTimeout timeout_so) fuel {} s := by
  unfold do_io
  simp only [hhook, Bool.true_eq_false, if_false, FdManager_get_false_snd, hctx, hopen,
    hsock, huser, Bool.false_eq_true, or_self]

theorem do_io_retry_succ (E : Env K) (fd : Int) (c : Call) (event : Nat) (timeout : Nat)
    (fuel : Nat) (t : timer_info) (s : St K) :
    do_io_retry E fd c event timeout (fuel + 1) t s =
      match call_while_EINTR E c (fuel + 1) s with
      | none => none
      | some r =>
        if r.1 = -1 ∧ r.2.errno = EAGAIN then
          match do_io_wait E fd event timeout t r.2 with
          | Sum.inl res => some res
          | Sum.inr next => do_io_retry E fd c event timeout fuel next.1 next.2
        else some r := rfl

/-- C6: `do_io` on an eligible socket context (hook flag set, context present
and open, socket, no `user_nonblock`) with a finite timeout, when the original
function failed with `EAGAIN` and `addEvent` returned `0`.  If the fiber comes
back from `yield` with `cancelled = ETIMEDOUT`, `do_io` returns `-1` with
`errno = ETIMEDOUT`, and after the failed call the log holds only the timer,
the event, the yield, the timer action's `cancelEvent` and the timer's
`cancel`: the original function is not called again.  If it comes back with
`cancelled = 0`, `do_io` cancels the timer and continues at `retry`, and
whatever it returns, the next thing in the log is another call of the original
function. -/
theorem do_io_timeout (E : Env K) (s s1 s3 : St K) (y : timer_info × St K) (fd : Int)
    (sym : Sym) (event : Nat) (timeout_so : Int) (args : List Int) (fuel : Nat) (ctx : FdCtx)
    (hhook : s.t_hook_enable = true)
    (hctx : (FdManager.get E s fd false).1 = some ctx)
    (hopen : ctx.isClosed = false) (hsock : ctx.isSocket = true)
    (huser : ctx.getUserNonblock = false)
    (hfin : ctx.getTimeout timeout_so ≠ UINT64_MAX)
    (hraw : call_while_EINTR E ⟨sym, fd :: args⟩ (fuel + 1) s = some (-1, s1))
    (herr : s1.errno = EAGAIN)
    (hs3 : s3 = (addEvent E fd event
      (s1.emit (Act.addConditionTimer (ctx.getTimeout timeout_so) fd event))).2)
    (hadd : (addEvent E fd event
      (s1.emit (Act.addConditionTimer (ctx.getTimeout timeout_so) fd event))).1 = 0)
    (hy : y = yield E fd event true {} s3) :
    (y.1.cancelled = ETIMEDOUT →
      do_io E fd sym event timeout_so args (fuel + 1) s =
        some (-1, { y.2.emit Act.timerCancel with errno := ETIMEDOUT }) ∧
      (y.2.emit Act.timerCancel).log =
        s1.log ++ [Act.addConditionTimer (ctx.getTimeout timeout_so) fd event,
          Act.addEvent fd event, Act.yield, Act.cancelEvent fd event, Act.timerCancel]) ∧
    (y.1.cancelled = 0 →
      do_io E fd sym event timeout_so args (fuel + 1) s =
        do_io_retry E fd ⟨sym, fd :: args⟩ event (ctx.getTimeout timeout_so) fuel {}
          (y.2.emit Act.timerCancel) ∧
      (y.2.emit Act.timerCancel).log =
        s1.log ++ [Act.addConditionTimer (ctx.getTimeout timeout_so) fd event,
          Act.addEvent fd event, Act.yield, Act.timerCancel] ∧
      ∀ r, do_io E fd sym event timeout_so args (fuel + 1) s = some r →
        s1.log ++ [Act.addConditionTimer (ctx.getTimeout timeout_so) fd event,
          Act.addEvent fd event, Act.yield, Act.timerCancel,
          Act.raw ⟨sym, fd :: args⟩] <+: r.2.log) := by
  have hT : decide (ctx.getTimeout timeout_so ≠ UINT64_MAX) = true := decide_eq_true hfin
  have hwait : do_io_wait E fd event (ctx.getTimeout timeout_so) {} s1 =
      if y.1.cancelled = ETIMEDOUT then
        Sum.inl (-1, { y.2.emit Act.timerCancel with errno := y.1.cancelled })
      else Sum.inr (y.1, y.2.emit Act.timerCancel) := by
    unfold do_io_wait
    simp only [hT, if_true, hadd, ne_eq, not_true_eq_false, if_false, ← hs3, ← hy]
  have hdo : do_io E fd sym event timeout_so args (fuel + 1) s =
      match do_io_wait E fd event (ctx.getTimeout timeout_so) {} s1 with
      | Sum.inl res => some res
      | Sum.inr next =>
        do_io_retry E fd ⟨sym, fd :: args⟩ event (ctx.getTimeout timeout_so) fuel
          next.1 next.2 := by
    rw [do_io_eligible E s fd sym event timeout_so args (fuel + 1) ctx hhook hctx hopen
      hsock huser]
    rw [do_io_retry_succ]
    simp only [hraw, herr, and_self, if_true]
  have hs3log : s3.log = s1.log ++ [Act.addConditionTimer (ctx.getTimeout timeout_so) fd event,
      Act.addEvent fd event] := by
    rw [hs3, addEvent_log, emit_log, List.append_assoc]
    rfl
  have hfresh := yield_fresh E fd event true s3
  rw [← hy] at hfresh
  constructor
  · intro hc
    rw [hdo, hwait, if_pos hc, hc]
    refine ⟨rfl, ?_⟩
    rcases hfresh with ⟨-, hl⟩ | ⟨h0, -⟩
    · rw [emit_log, hl, hs3log]
      simp
    · rw [h0] at hc
      exact absurd hc (by decide)
  · intro hc
    have hne : ¬ y.1.cancelled = ETIMEDOUT := by
      rw [hc]
      decide
    have hy1 : y.1 = {} := by
      cases hy1 : y.1
      rw [hy1] at hc
      simp only at hc
      rw [hc]
    have hlog : (y.2.emit Act.timerCancel).log =
        s1.log ++ [Act.addConditionTimer (ctx.getTimeout timeout_so) fd event,
          Act.addEvent fd event, Act.yield, Act.timerCancel] := by
      rcases hfresh with ⟨h1, -⟩ | ⟨-, hl⟩
      · exact absurd h1 hne
      · rw [emit_log, hl, hs3log]
        simp
    have heq : do_io E fd sym event timeout_so args (fuel + 1) s =
        do_io_retry E fd ⟨sym, fd :: args⟩ event (ctx.getTimeout timeout_so) fuel {}
          (y.2.emit Act.timerCancel) := by
      rw [hdo, hwait, if_neg hne, hy1]
    refine ⟨heq, hlog, ?_⟩
    intro r hr
    rw [heq] at hr
    have hp := do_io_retry_prefix E fd _ event _ fuel _ _ r hr
    rw [hlog, List.append_assoc] at hp
    exact hp

theorem do_io_timeout_witness :
    testStTimeout.t_hook_enable = true ∧
    (FdManager.get testEnvTimeout testStTimeout 5 false).1
      = some ((sockCtx 5).setTimeout SO_RCVTIMEO 200) ∧
    ((sockCtx 5).setTimeout SO_RCVTIMEO 200).getTimeout SO_RCVTIMEO ≠ UINT64_MAX ∧
    call_while_EINTR testEnvTimeout ⟨Sym.read, [5, 0, 1]⟩ 1 testStTimeout
      = some (-1, (rawCall testEnvTimeout ⟨Sym.read, [5, 0, 1]⟩ testStTimeout).2) ∧
    (yield testEnvTimeout 5 READ true {}
      (addEvent testEnvTimeout 5 READ
        ((rawCall testEnvTimeout ⟨Sym.read, [5, 0, 1]⟩ testStTimeout).2.emit
          (Act.addConditionTimer 200 5 READ))).2).1.cancelled = ETIMEDOUT ∧
    do_io testEnvTimeout 5 Sym.read READ SO_RCVTIMEO [0, 1] 1 testStTimeout =
      some (-1, { (yield testEnvTimeout 5 READ true {}
        (addEvent testEnvTimeout 5 READ
          ((rawCall testEnvTimeout ⟨Sym.read, [5, 0, 1]⟩ testStTimeout).2.emit
            (Act.addConditionTimer 200 5 READ))).2).2.emit Act.timerCancel with
        errno := ETIMEDOUT }) :=
  ⟨rfl, by decide, by decide, rfl, by decide,
    (((do_io_timeout testEnvTimeout testStTimeout
      (rawCall testEnvTimeout ⟨Sym.read, [5, 0, 1]⟩ testStTimeout).2 _ _ 5 Sym.read READ
      SO_RCVTIMEO [0, 1] 0 ((sockCtx 5).setTimeout SO_RCVTIMEO 200) rfl (by decide) rfl rfl rfl
      (by decide) rfl rfl rfl rfl rfl).1) (by decide)).1⟩

/-! ## The hook flag and missing contexts -/

/-- With the hook flag clear, these wrappers are one call of the original
symbol with the caller's arguments. -/
theorem hook_disabled_pass_through (E : Env K) (s : St K) (h : s.t_hook_enable = false) :
    (∀ seconds, sleep E seconds s = rawCall E ⟨Sym.sleep, [seconds]⟩ s) ∧
    (∀ usec, usleep E usec s = rawCall E ⟨Sym.usleep, [usec]⟩ s) ∧
    (∀ req rem sec nsec, nanosleep E req rem sec nsec s =
      rawCall E ⟨Sym.nanosleep, [req, rem]⟩ s) ∧
    (∀ d t p, socket E d t p s = rawCall E ⟨Sym.socket, [d, t, p]⟩ s) ∧
    (∀ fd addr len, connect E fd addr len s = rawCall E ⟨Sym.connect, [fd, addr, len]⟩ s) ∧
    (∀ fd sym event so args fuel, do_io E fd sym event so args fuel s =
      some (rawCall E ⟨sym, fd :: args⟩ s)) ∧
    (∀ fd, close E fd s = rawCall E ⟨Sym.close, [fd]⟩ s) ∧
    (∀ fd level name val len, getsockopt E fd level name val len s =
      rawCall E ⟨Sym.getsockopt, [fd, level, name, val, len]⟩ s) ∧
    (∀ fd level name val len sec usec, setsockopt E fd level name val len sec usec s =
      rawCall E ⟨Sym.setsockopt, [fd, level, name, val, len]⟩ s) := by
  refine ⟨?_, ?_, ?_, ?_, ?_, ?_, ?_, ?_, ?_⟩ <;> intros <;>
    simp only [sleep, usleep, nanosleep, socket, connect, connect_with_timeout, do_io, close,
      getsockopt, setsockopt, h, if_true]

/-- C1, evaluated where it fails.  With the hook flag clear, `accept` on an
original `accept` that returns fd 7 still runs `get(7, true)`: the table gains
a context for 7, and the constructor calls `fstat` and the original `fcntl`
twice, switching the new socket to `O_NONBLOCK`; and `fcntl(5, F_SETFL, 0)` on
a socket context hands the original `fcntl` the word `O_NONBLOCK` instead of
`0`. -/
theorem hook_disabled_not_pass_through :
    (testSt false FdManager.new).t_hook_enable = false ∧
    (testSt false FdManager.new).m_datas.getD 7 none = none ∧
    (accept testEnvAccept 3 0 0 0 (testSt false FdManager.new)).map
        (fun r => (r.1, r.2.m_datas.getD 7 none, r.2.log)) =
      some (7, some (sockCtx 7),
        [Act.raw ⟨Sym.accept, [3, 0, 0]⟩, Act.raw ⟨Sym.fstat, [7]⟩,
          Act.raw ⟨Sym.fcntl, [7, F_GETFL, 0]⟩,
          Act.raw ⟨Sym.fcntl, [7, F_SETFL, O_NONBLOCK]⟩]) ∧
    (fcntl testEnvAccept 5 F_SETFL 0 (testSt false testTable)).2.log =
      [Act.raw ⟨Sym.fcntl, [5, F_SETFL, O_NONBLOCK]⟩] := by
  decide

/-- C4, refuted for `connect`: on a hooked thread and an fd without context,
the wrapper returns `-1` with `errno = EBADF` and an empty log, although the
original `connect` would have returned `0`. -/
theorem connect_no_context_EBADF :
    (FdManager.get (testEnv (fun _ => 0) (fun _ e => e) true false)
      (testSt true FdManager.new) 5 false).1 = none ∧
    (connect (testEnv (fun _ => 0) (fun _ e => e) true false) 5 0 16
      (testSt true FdManager.new)).1 = -1 ∧
    (connect (testEnv (fun _ => 0) (fun _ e => e) true false) 5 0 16
      (testSt true FdManager.new)).2.errno = EBADF ∧
    (connect (testEnv (fun _ => 0) (fun _ e => e) true false) 5 0 16
      (testSt true FdManager.new)).2.log = [] ∧
    (rawCall (testEnv (fun _ => 0) (fun _ e => e) true false) ⟨Sym.connect, [5, 0, 16]⟩
      (testSt true FdManager.new)).1 = 0 := by
  decide

theorem FdManager_get_none_of_datas (E : Env K) (s t : St K) (fd : Int)
    (hm : t.m_datas = s.m_datas) (h : (FdManager.get E s fd false).1 = none) :
    FdManager.get E t fd false = (none, t) := by
  rw [FdManager_get_false] at h ⊢
  rw [hm]
  exact Prod.ext h rfl

/-- C4 as the code has it: on an fd without context the `do_io` template
(and so `accept`, whose result is that of the original `accept`), `close`,
`fcntl`, `ioctl` and `setsockopt` are one call of the original symbol, whose
result and `errno` they return; `connect_with_timeout` is that call only with
the hook flag clear, and with the hook flag set it returns `-1` with
`errno = EBADF` and calls nothing. -/
theorem no_context_behaviour (E : Env K) (s : St K) (fd : Int)
    (h : (FdManager.get E s fd false).1 = none) :
    (∀ sym event so args fuel, do_io E fd sym event so args fuel s =
      some (rawCall E ⟨sym, fd :: args⟩ s)) ∧
    (∀ addr len fuel, (accept E fd addr len fuel s).map Prod.fst =
      some (rawCall E ⟨Sym.accept, [fd, addr, len]⟩ s).1) ∧
    close E fd s = rawCall E ⟨Sym.close, [fd]⟩ s ∧
    (∀ cmd arg, fcntl E fd cmd arg s = rawCall E ⟨Sym.fcntl, [fd, cmd, arg]⟩ s ∨
      fcntl E fd cmd arg s = rawCall E ⟨Sym.fcntl, [fd, cmd]⟩ s) ∧
    (∀ request arg argval, ioctl E fd request arg argval s =
      rawCall E ⟨Sym.ioctl, [fd, request, arg]⟩ s) ∧
    (∀ level name val len sec usec, setsockopt E fd level name val len sec usec s =
      rawCall E ⟨Sym.setsockopt, [fd, level, name, val, len]⟩ s) ∧
    (∀ addr len timeout_ms, connect_with_timeout E fd addr len timeout_ms s =
      if s.t_hook_enable = false then rawCall E ⟨Sym.connect, [fd, addr, len]⟩ s
      else (-1, { s with errno := EBADF })) := by
  have hg : FdManager.get E s fd false = (none, s) :=
    FdManager_get_none_of_datas E s s fd rfl h
  have hdo : ∀ sym event so args fuel, do_io E fd sym event so args fuel s =
      some (rawCall E ⟨sym, fd :: args⟩ s) := by
    intro sym event so args fuel
    unfold do_io
    simp only [hg]
    split_ifs <;> rfl
  refine ⟨hdo, ?_, ?_, ?_, ?_, ?_, ?_⟩
  · intro addr len fuel
    unfold accept
    rw [hdo]
    dsimp only
    split_ifs <;> rfl
  · unfold close
    simp only [hg]
    split_ifs <;> rfl
  · intro cmd arg
    unfold fcntl
    have hg2 : FdManager.get E (rawCall E ⟨Sym.fcntl, [fd, cmd]⟩ s).2 fd false =
        (none, (rawCall E ⟨Sym.fcntl, [fd, cmd]⟩ s).2) :=
      FdManager_get_none_of_datas E s _ fd rfl h
    simp only [hg, hg2]
    split_ifs <;> first | exact Or.inl rfl | exact Or.inr rfl
  · intro request arg argval
    unfold ioctl
    simp only [hg]
    split_ifs <;> rfl
  · intro level name val len sec usec
    unfold setsockopt
    simp only [hg]
    split_ifs <;> rfl
  · intro addr len timeout_ms
    unfold connect_with_timeout
    simp only [hg]

theorem no_context_behaviour_witness :
    (FdManager.get (testEnv (fun _ => 0) (fun _ e => e) true false)
      (testSt true FdManager.new) 5 false).1 = none ∧
    close (testEnv (fun _ => 0) (fun _ e => e) true false) 5 (testSt true FdManager.new) =
      rawCall (testEnv (fun _ => 0) (fun _ e => e) true false) ⟨Sym.close, [5]⟩
        (testSt true FdManager.new) :=
  ⟨by decide,
    (no_context_behaviour (testEnv (fun _ => 0) (fun _ e => e) true false)
      (testSt true FdManager.new) 5 (by decide)).2.2.1⟩

/-! ## Timeouts set through `setsockopt` -/

/-- C7, refuted twice.  On an unhooked thread (hook flag clear),
`setsockopt(5, SOL_SOCKET, SO_RCVTIMEO, {1, 0})` on a socket context leaves
its receive timeout at the "no timeout" value, not at 1000 ms.  On a hooked
thread, the timeval `{-1, 0}` stores `2^64 - 1000`, the `uint64_t` image of
`-1000`, not `-1 * 1000 + 0 / 1000`. -/
theorem setsockopt_timeout_not_stored :
    (testSt false testTable).t_hook_enable = false ∧
    (FdManager.get (testEnv (fun _ => 0) (fun _ e => e) true false)
      (testSt false testTable) 5 false).1 = some (sockCtx 5) ∧
    ((setsockopt (testEnv (fun _ => 0) (fun _ e => e) true false) 5 SOL_SOCKET SO_RCVTIMEO
        0 16 1 0 (testSt false testTable)).2.m_datas.getD 5 none).map
      (fun c => c.getTimeout SO_RCVTIMEO) = some UINT64_MAX ∧
    (UINT64_MAX : Int) ≠ 1 * 1000 + 0 / 1000 ∧
    ((setsockopt (testEnv (fun _ => 0) (fun _ e => e) true false) 5 SOL_SOCKET SO_RCVTIMEO
        0 16 (-1) 0 (testSt true testTable)).2.m_datas.getD 5 none).map
      (fun c => c.getTimeout SO_RCVTIMEO) = some (2 ^ 64 - 1000) ∧
    ((2 ^ 64 - 1000 : Nat) : Int) ≠ -1 * 1000 + 0 / 1000 := by
  decide

theorem getTimeout_setTimeout (c : FdCtx) (type : Int) (v : Nat) :
    (c.setTimeout type v).getTimeout type = v := by
  unfold FdCtx.setTimeout FdCtx.getTimeout
  split_ifs <;> rfl

/-- Milliseconds of a non-negative `timeval` that fit a `long` are stored
exactly. -/
theorem toUInt64_toInt64_of_range (v : Int) (h0 : 0 ≤ v) (h1 : v < 2 ^ 63) :
    (toUInt64 (toInt64 v) : Int) = v := by
  unfold toUInt64 toInt64
  norm_num at h1 ⊢
  omega

/-- C7 as the code has it: on a hooked thread, for an fd with a context,
`setsockopt(fd, SOL_SOCKET, SO_RCVTIMEO or SO_SNDTIMEO, {s, us})` stores
`s*1000 + us/1000`, computed in `long` with truncating division and converted
to `uint64_t`, as the timeout of that kind, then calls the original
`setsockopt`; what is stored does not depend on the original call.  For
`s >= 0`, `us >= 0` and a value below `2^63` that is exactly
`s*1000 + us/1000`.  With the hook flag clear nothing is stored. -/
theorem setsockopt_timeout (E : Env K) (s : St K) (sockfd optname optval optlen : Int)
    (tv_sec tv_usec : Int) (ctx : FdCtx)
    (hctx : (FdManager.get E s sockfd false).1 = some ctx)
    (hopt : optname = SO_RCVTIMEO ∨ optname = SO_SNDTIMEO) :
    (s.t_hook_enable = true →
      setsockopt E sockfd SOL_SOCKET optname optval optlen tv_sec tv_usec s =
        rawCall E ⟨Sym.setsockopt, [sockfd, SOL_SOCKET, optname, optval, optlen]⟩
          (s.store sockfd (ctx.setTimeout optname
            (toUInt64 (toInt64 (tv_sec * 1000 + Int.tdiv tv_usec 1000))))) ∧
      ((setsockopt E sockfd SOL_SOCKET optname optval optlen tv_sec tv_usec s).2.m_datas.getD
          sockfd.toNat none).map (fun c => c.getTimeout optname) =
        some (toUInt64 (toInt64 (tv_sec * 1000 + Int.tdiv tv_usec 1000)))) ∧
    (0 ≤ tv_sec → 0 ≤ tv_usec → tv_sec * 1000 + tv_usec / 1000 < 2 ^ 63 →
      (toUInt64 (toInt64 (tv_sec * 1000 + Int.tdiv tv_usec 1000)) : Int) =
        tv_sec * 1000 + tv_usec / 1000) ∧
    (s.t_hook_enable = false →
      setsockopt E sockfd SOL_SOCKET optname optval optlen tv_sec tv_usec s =
        rawCall E ⟨Sym.setsockopt, [sockfd, SOL_SOCKET, optname, optval, optlen]⟩ s) := by
  have hg := (FdManager_get_eq_some E s sockfd ctx).mp hctx
  refine ⟨?_, ?_, ?_⟩
  · intro hhook
    have heq : setsockopt E sockfd SOL_SOCKET optname optval optlen tv_sec tv_usec s =
        rawCall E ⟨Sym.setsockopt, [sockfd, SOL_SOCKET, optname, optval, optlen]⟩
          (s.store sockfd (ctx.setTimeout optname
            (toUInt64 (toInt64 (tv_sec * 1000 + Int.tdiv tv_usec 1000))))) := by
      unfold setsockopt
      simp only [hhook, Bool.true_eq_false, if_false, hopt, and_self, if_true,
        FdManager_get_false_snd, hctx]
    refine ⟨heq, ?_⟩
    rw [heq, rawCall_m_datas, store_getD s sockfd ctx _ hg.2, Option.map_some',
      getTimeout_setTimeout]
  · intro h0 h1 h2
    rw [Int.tdiv_eq_ediv h1 (by decide)]
    have h3 : 0 ≤ tv_usec / 1000 := Int.ediv_nonneg h1 (by decide)
    exact toUInt64_toInt64_of_range _ (by omega) h2
  · intro hhook
    unfold setsockopt
    simp only [hhook, if_true]

theorem setsockopt_timeout_witness :
    (FdManager.get (testEnv (fun _ => -1) (fun _ _ => EBADF) true false)
      (testSt true testTable) 5 false).1 = some (sockCtx 5) ∧
    (SO_RCVTIMEO = SO_RCVTIMEO ∨ SO_RCVTIMEO = SO_SNDTIMEO) ∧
    (testSt true testTable).t_hook_enable = true ∧
    ((setsockopt (testEnv (fun _ => -1) (fun _ _ => EBADF) true false) 5 SOL_SOCKET
        SO_RCVTIMEO 0 16 1 500000 (testSt true testTable)).2.m_datas.getD
          (5 : Int).toNat none).map (fun c => c.getTimeout SO_RCVTIMEO) =
      some (toUInt64 (toInt64 (1 * 1000 + Int.tdiv 500000 1000))) :=
  ⟨by decide, Or.inl rfl, rfl,
    ((setsockopt_timeout (testEnv (fun _ => -1) (fun _ _ => EBADF) true false)
      (testSt true testTable) 5 SO_RCVTIMEO 0 16 1 500000 (sockCtx 5) (by decide)
      (Or.inl rfl)).1 rfl).2⟩

/-! ## Deleting a context -/

/-- The members the constructor never writes keep their initialisers. -/
theorem FdCtx_new_defaults (E : Env K) (fd : Int) (s : St K) :
    (FdCtx.new E fd s).1.m_userNonblock = false ∧ (FdCtx.new E fd s).1.m_isClosed = false ∧
    (FdCtx.new E fd s).1.m_recvTimeout = UINT64_MAX ∧
    (FdCtx.new E fd s).1.m_sendTimeout = UINT64_MAX := by
  unfold FdCtx.new FdCtx.init
  dsimp only
  split_ifs <;> exact ⟨rfl, rfl, rfl, rfl⟩

/-- The creating branch of `get` on a table of at least 64 slots leaves the
new context in slot `fd`. -/
theorem FdManager_get_true_absent_slot (E : Env K) (s : St K) (fd : Int) (h0 : 0 ≤ fd)
    (hn : s.m_datas.getD fd.toNat none = none) (h64 : 64 ≤ s.m_datas.length) :
    (FdManager.get E s fd true).1 = some (FdCtx.new E fd s).1 ∧
    (FdManager.get E s fd true).2.m_datas.getD fd.toNat none = some (FdCtx.new E fd s).1 := by
  rw [FdManager_get_true_absent E s fd h0 hn]
  refine ⟨rfl, ?_⟩
  have hlen : fd.toNat < ((if s.m_datas.length ≤ fd.toNat then
      vector_resize s.m_datas (fd * 3 / 2).toNat else s.m_datas).set fd.toNat
        (some (FdCtx.new E fd s).1)).length := by
    simp only [List.length_set]
    split_ifs with h
    · rw [vector_resize_length]
      omega
    · omega
  simp only [List.length_set] at hlen
  simp [List.getD_eq_getElem?_getD, List.getElem?_set_self, hlen]

theorem FdManager_del_slot (s : St K) (fd : Int) (h0 : 0 ≤ fd) :
    (FdManager.del s fd).m_datas.getD fd.toNat none = none := by
  unfold FdManager.del
  split_ifs with h
  · rcases h with h | h
    · omega
    · exact List.getD_eq_default _ _ h
  · have hlt : fd.toNat < s.m_datas.length := by omega
    simp [List.getD_eq_getElem?_getD, List.getElem?_set_self, hlt]

theorem FdManager_del_other (s : St K) (fd : Int) (i : Nat) (hi : i ≠ fd.toNat) :
    (FdManager.del s fd).m_datas[i]? = s.m_datas[i]? := by
  unfold FdManager.del
  split_ifs with h
  · rfl
  · exact List.getElem?_set_ne (Ne.symm hi)

/-- C11: on a table of the `FdManager` and for `fd >= 0`, `del(fd)` keeps the
size, keeps every slot other than `fd`, touches nothing but the table, and
leaves slot `fd` empty: `get(fd, false)` is null afterwards, and a later
`get(fd, true)` constructs a new `FdCtx(fd)`, with both timeouts at the "no
timeout" value and `user_nonblock` false, and stores it in the slot; for an
`fd` beyond the table `del` changes nothing at all. -/
theorem FdManager_del_spec (E : Env K) (s : St K) (fd : Int)
    (hR : FdManager.Reachable E s.m_datas) (hfd : 0 ≤ fd) :
    (FdManager.del s fd).m_datas.length = s.m_datas.length ∧
    (∀ i, i ≠ fd.toNat → (FdManager.del s fd).m_datas[i]? = s.m_datas[i]?) ∧
    FdManager.del s fd = { s with m_datas := (FdManager.del s fd).m_datas } ∧
    (FdManager.del s fd).m_datas.getD fd.toNat none = none ∧
    FdManager.get E (FdManager.del s fd) fd false = (none, FdManager.del s fd) ∧
    (∀ t : St K, t.m_datas = (FdManager.del s fd).m_datas →
      (FdManager.get E t fd true).1 = some (FdCtx.new E fd t).1 ∧
      (FdManager.get E t fd true).2.m_datas.getD fd.toNat none = some (FdCtx.new E fd t).1 ∧
      (FdCtx.new E fd t).1.getTimeout SO_RCVTIMEO = UINT64_MAX ∧
      (FdCtx.new E fd t).1.getTimeout SO_SNDTIMEO = UINT64_MAX ∧
      (FdCtx.new E fd t).1.getUserNonblock = false) ∧
    (s.m_datas.length ≤ fd.toNat → FdManager.del s fd = s) := by
  have h64 := Reachable_length E _ hR
  have hslot := FdManager_del_slot s fd hfd
  refine ⟨FdManager_del_length s fd, fun i hi => FdManager_del_other s fd i hi, ?_, hslot,
    ?_, ?_, ?_⟩
  · unfold FdManager.del
    split_ifs <;> rfl
  · rw [FdManager_get_false, if_pos hfd, hslot]
  · intro t ht
    have hn : t.m_datas.getD fd.toNat none = none := by rw [ht]; exact hslot
    have hl : 64 ≤ t.m_datas.length := by rw [ht, FdManager_del_length]; exact h64
    obtain ⟨h1, h2⟩ := FdManager_get_true_absent_slot E t fd hfd hn hl
    obtain ⟨d1, -, d3, d4⟩ := FdCtx_new_defaults E fd t
    refine ⟨h1, h2, ?_, ?_, d1⟩
    · exact d3
    · exact d4
  · intro h
    unfold FdManager.del
    rw [if_pos (Or.inr h)]

/-- The table `testTable` is what `get(5, true)` makes of the constructor's
table when fd 5 is a socket. -/
theorem testTable_reachable :
    FdManager.Reachable (testEnv (fun _ => 0) (fun _ e => e) true false) testTable := by
  have h := FdManager.Reachable.get (E := testEnv (fun _ => 0) (fun _ e => e) true false)
    (testSt true FdManager.new) 5 true FdManager.Reachable.ctor
  have he : (FdManager.get (testEnv (fun _ => 0) (fun _ e => e) true false)
      (testSt true FdManager.new) 5 true).2.m_datas = testTable := by decide
  rw [he] at h
  exact h

theorem FdManager_del_spec_witness :
    FdManager.Reachable (testEnv (fun _ => 0) (fun _ e => e) true false)
      (testSt true testTable).m_datas ∧ (0 : Int) ≤ 5 ∧
    (testSt true testTable).m_datas.getD 5 none = some (sockCtx 5) ∧
    FdManager.get (testEnv (fun _ => 0) (fun _ e => e) true false)
      (FdManager.del (testSt true testTable) 5) 5 false
      = (none, FdManager.del (testSt true testTable) 5) :=
  ⟨testTable_reachable, by decide, by decide,
    (FdManager_del_spec (testEnv (fun _ => 0) (fun _ e => e) true false)
      (testSt true testTable) 5 testTable_reachable (by decide)).2.2.2.2.1⟩

/-! ## Constructing a context -/

/-- C12: what `FdCtx(fd)` holds after construction.  When `fstat` fails,
`is_init`, `is_socket` and `sys_nonblock` are false; when it succeeds,
`is_init` is true and `is_socket` is the `S_ISSOCK` of the mode.  For a
socket, `sys_nonblock` is true and the constructor reads the flags with the
original `F_GETFL`: if their `O_NONBLOCK` bit is clear it issues the original
`F_SETFL` with that bit set and every other bit as read, and otherwise
issues nothing more.  For anything else only `fstat` is called.  In every
case `sys_nonblock` equals `is_socket`, and `user_nonblock` is false. -/
theorem FdCtx_new_spec (E : Env K) (s : St K) (fd : Int) :
    ((rawCall E ⟨Sym.fstat, [fd]⟩ s).1 = -1 →
      (FdCtx.new E fd s).1.isInit = false ∧ (FdCtx.new E fd s).1.isSocket = false ∧
      (FdCtx.new E fd s).1.getSysNonblock = false) ∧
    ((rawCall E ⟨Sym.fstat, [fd]⟩ s).1 ≠ -1 →
      (FdCtx.new E fd s).1.isInit = true ∧
      (FdCtx.new E fd s).1.isSocket = E.S_ISSOCK fd (rawCall E ⟨Sym.fstat, [fd]⟩ s).2.kernel) ∧
    ((FdCtx.new E fd s).1.isSocket = true →
      (FdCtx.new E fd s).1.getSysNonblock = true ∧
      (Int.land (rawCall E ⟨Sym.fcntl, [fd, F_GETFL, 0]⟩
          (rawCall E ⟨Sym.fstat, [fd]⟩ s).2).1 O_NONBLOCK = 0 →
        (FdCtx.new E fd s).2.log = s.log ++
          [Act.raw ⟨Sym.fstat, [fd]⟩, Act.raw ⟨Sym.fcntl, [fd, F_GETFL, 0]⟩,
            Act.raw ⟨Sym.fcntl, [fd, F_SETFL,
              Int.lor (rawCall E ⟨Sym.fcntl, [fd, F_GETFL, 0]⟩
                (rawCall E ⟨Sym.fstat, [fd]⟩ s).2).1 O_NONBLOCK]⟩] ∧
        ∀ i, (Int.lor (rawCall E ⟨Sym.fcntl, [fd, F_GETFL, 0]⟩
            (rawCall E ⟨Sym.fstat, [fd]⟩ s).2).1 O_NONBLOCK).testBit i =
          if O_NONBLOCK.testBit i then true
          else (rawCall E ⟨Sym.fcntl, [fd, F_GETFL, 0]⟩
            (rawCall E ⟨Sym.fstat, [fd]⟩ s).2).1.testBit i) ∧
      (Int.land (rawCall E ⟨Sym.fcntl, [fd, F_GETFL, 0]⟩
          (rawCall E ⟨Sym.fstat, [fd]⟩ s).2).1 O_NONBLOCK ≠ 0 →
        (FdCtx.new E fd s).2.log = s.log ++
          [Act.raw ⟨Sym.fstat, [fd]⟩, Act.raw ⟨Sym.fcntl, [fd, F_GETFL, 0]⟩])) ∧
    ((FdCtx.new E fd s).1.isSocket = false →
      (FdCtx.new E fd s).2.log = s.log ++ [Act.raw ⟨Sym.fstat, [fd]⟩]) ∧
    (FdCtx.new E fd s).1.getSysNonblock = (FdCtx.new E fd s).1.isSocket ∧
    (FdCtx.new E fd s).1.getUserNonblock = false := by
  have hbits : ∀ (g : Int) (i : Nat), (Int.lor g O_NONBLOCK).testBit i =
      if O_NONBLOCK.testBit i then true else g.testBit i := by
    intro g i
    rw [Int.testBit_lor]
    cases O_NONBLOCK.testBit i <;> simp
  unfold FdCtx.new FdCtx.init
  simp only [Bool.false_eq_true, if_false, FdCtx.isInit, FdCtx.isSocket, FdCtx.getSysNonblock,
    FdCtx.getUserNonblock]
  by_cases h1 : (rawCall E ⟨Sym.fstat, [fd]⟩ s).1 = -1
  · simp [h1]
  · simp only [h1, if_false]
    by_cases h2 : E.S_ISSOCK fd (rawCall E ⟨Sym.fstat, [fd]⟩ s).2.kernel = true
    · simp only [h2, if_true]
      by_cases h3 : Int.land (rawCall E ⟨Sym.fcntl, [fd, F_GETFL, 0]⟩
          (rawCall E ⟨Sym.fstat, [fd]⟩ s).2).1 O_NONBLOCK = 0
      · simp [h3, hbits]
      · simp [h3]
    · simp [h2]

theorem FdCtx_new_spec_witness :
    (FdCtx.new (testEnv (fun _ => 0) (fun _ e => e) true false) 5
      (testSt true FdManager.new)).1.isSocket = true ∧
    (FdCtx.new (testEnv (fun _ => 0) (fun _ e => e) true false) 5
      (testSt true FdManager.new)).1.getSysNonblock = true :=
  ⟨by decide,
    ((FdCtx_new_spec (testEnv (fun _ => 0) (fun _ e => e) true false)
      (testSt true FdManager.new) 5).2.2.1 (by decide)).1⟩

/-! ## The dequeue step of a worker -/

/-- The scan takes the first task that is unpinned or pinned to this worker
and erases it. -/
theorem Scheduler_scan_find (t : Int) (q : List ScheduleTask) (tm : Bool) :
    (Scheduler.scan t q tm).1 = q.find? (fun x => decide (x.thread = -1 ∨ x.thread = t)) ∧
    (Scheduler.scan t q tm).2.1 = q.eraseP (fun x => decide (x.thread = -1 ∨ x.thread = t)) := by
  induction q generalizing tm with
  | nil => exact ⟨rfl, rfl⟩
  | cons x rest ih =>
    unfold Scheduler.scan
    by_cases h : x.thread ≠ -1 ∧ x.thread ≠ t
    · have hp : ¬ (x.thread = -1 ∨ x.thread = t) := by
        rintro (h1 | h1)
        · exact h.1 h1
        · exact h.2 h1
      simp only [h, and_self, if_true, List.find?_cons, List.eraseP_cons, hp, decide_False,
        not_false_eq_true, ne_eq]
      exact ⟨(ih true).1, by rw [(ih true).2]; rfl⟩
    · have hp : x.thread = -1 ∨ x.thread = t := by
        by_contra hc
        exact h ⟨fun h1 => hc (Or.inl h1), fun h1 => hc (Or.inr h1)⟩
      rw [if_neg h]
      simp [List.find?_cons, List.eraseP_cons, hp]

/-- The final `tickle_me` says that something is left in the scanned part, or
was set before. -/
theorem Scheduler_scan_tickle (t : Int) (q : List ScheduleTask) (tm : Bool) :
    (Scheduler.scan t q tm).2.2 = (tm || decide ((Scheduler.scan t q tm).2.1 ≠ [])) := by
  induction q generalizing tm with
  | nil => simp [Scheduler.scan]
  | cons x rest ih =>
    unfold Scheduler.scan
    by_cases h : x.thread ≠ -1 ∧ x.thread ≠ t
    · rw [if_pos h]
      simp [ih true]
    · rw [if_neg h]

theorem Scheduler_scan_split (t : Int) (pre : List ScheduleTask) (x : ScheduleTask)
    (post : List ScheduleTask) (tm : Bool)
    (hpre : ∀ y ∈ pre, y.thread ≠ -1 ∧ y.thread ≠ t) (hx : x.thread = -1 ∨ x.thread = t) :
    (Scheduler.scan t (pre ++ x :: post) tm).1 = some x ∧
    (Scheduler.scan t (pre ++ x :: post) tm).2.1 = pre ++ post := by
  induction pre generalizing tm with
  | nil =>
    have h : ¬ (x.thread ≠ -1 ∧ x.thread ≠ t) := by
      rintro ⟨h1, h2⟩
      rcases hx with hx | hx
      · exact h1 hx
      · exact h2 hx
    show (Scheduler.scan t (x :: post) tm).1 = some x ∧
      (Scheduler.scan t (x :: post) tm).2.1 = post
    unfold Scheduler.scan
    rw [if_neg h]
    exact ⟨rfl, rfl⟩
  | cons y pre ih =>
    have hy := hpre y (List.mem_cons_self _ _)
    have ih2 := ih true (fun z hz => hpre z (List.mem_cons_of_mem _ hz))
    show (Scheduler.scan t (y :: (pre ++ x :: post)) tm).1 = some x ∧
      (Scheduler.scan t (y :: (pre ++ x :: post)) tm).2.1 = y :: (pre ++ post)
    unfold Scheduler.scan
    rw [if_pos hy]
    exact ⟨ih2.1, congrArg (List.cons y) ih2.2⟩

theorem Scheduler_scan_none (t : Int) (q : List ScheduleTask) (tm : Bool)
    (hq : ∀ y ∈ q, y.thread ≠ -1 ∧ y.thread ≠ t) :
    (Scheduler.scan t q tm).1 = none ∧ (Scheduler.scan t q tm).2.1 = q := by
  induction q generalizing tm with
  | nil => exact ⟨rfl, rfl⟩
  | cons y rest ih =>
    have hy := hq y (List.mem_cons_self _ _)
    have ih2 := ih true (fun z hz => hq z (List.mem_cons_of_mem _ hz))
    unfold Scheduler.scan
    rw [if_pos hy]
    exact ⟨ih2.1, congrArg (List.cons y) ih2.2⟩

/-- C13, refuted at shutdown: with an empty queue and the idle fiber in state
`TERM`, the worker takes nothing and leaves the loop; it does not resume the
idle fiber. -/
theorem Scheduler_round_idle_TERM :
    (Scheduler.dequeue 7 ⟨[], 0⟩).1 = none ∧
    (Scheduler.dequeue 7 ⟨[], 0⟩).2.2.m_tasks = [] ∧
    (Scheduler.round 7 (fun _ => false) true ⟨[], 0⟩).1 = [RunAct.leave] ∧
    RunAct.resume_idle ∉ (Scheduler.round 7 (fun _ => false) true ⟨[], 0⟩).1 := by
  decide

/-- C13 as the code has it: the dequeue step of worker `t` takes the first
task, in queue order, whose target thread is `-1` or `t`, and erases it,
leaving the other tasks in their order; a task it takes is never pinned to
another thread; when every task is pinned to another thread nothing is
removed and the worker, after `tickle()` if the queue is not empty, resumes
the idle fiber, unless the idle fiber is `TERM`, in which case it leaves the
loop. -/
theorem Scheduler_dequeue_spec (t : Int) (sch : Scheduler) :
    (Scheduler.dequeue t sch).1 =
      sch.m_tasks.find? (fun x => decide (x.thread = -1 ∨ x.thread = t)) ∧
    (Scheduler.dequeue t sch).2.2.m_tasks =
      sch.m_tasks.eraseP (fun x => decide (x.thread = -1 ∨ x.thread = t)) ∧
    (∀ pre x post, sch.m_tasks = pre ++ x :: post →
      (∀ y ∈ pre, y.thread ≠ -1 ∧ y.thread ≠ t) → (x.thread = -1 ∨ x.thread = t) →
      (Scheduler.dequeue t sch).1 = some x ∧
      (Scheduler.dequeue t sch).2.2.m_tasks = pre ++ post) ∧
    (∀ x, (Scheduler.dequeue t sch).1 = some x → x.thread = -1 ∨ x.thread = t) ∧
    ((∀ y ∈ sch.m_tasks, y.thread ≠ -1 ∧ y.thread ≠ t) →
      (Scheduler.dequeue t sch).1 = none ∧
      (Scheduler.dequeue t sch).2.2 = sch ∧
      ∀ fiberTerm idleTerm, (Scheduler.round t fiberTerm idleTerm sch).1 =
        (if sch.m_tasks ≠ [] then [RunAct.tickle] else []) ++
          [if idleTerm then RunAct.leave else RunAct.resume_idle]) := by
  have hf := Scheduler_scan_find t sch.m_tasks false
  refine ⟨hf.1, hf.2, ?_, ?_, ?_⟩
  · intro pre x post hq hpre hx
    unfold Scheduler.dequeue
    dsimp only
    rw [hq]
    exact Scheduler_scan_split t pre x post false hpre hx
  · intro x hx
    have h1 : sch.m_tasks.find? (fun x => decide (x.thread = -1 ∨ x.thread = t)) = some x := by
      rw [← hf.1]
      exact hx
    have h2 := List.find?_some h1
    exact of_decide_eq_true h2
  · intro hq
    have hn := Scheduler_scan_none t sch.m_tasks false hq
    have ht := Scheduler_scan_tickle t sch.m_tasks false
    rw [hn.2] at ht
    have hd : Scheduler.dequeue t sch = (none, decide (sch.m_tasks ≠ []), sch) := by
      unfold Scheduler.dequeue
      dsimp only
      rw [hn.1, hn.2, ht]
      simp
    refine ⟨by rw [hd], by rw [hd], ?_⟩
    intro fiberTerm idleTerm
    unfold Scheduler.round
    dsimp only
    rw [hd]
    unfold Scheduler.dispatch
    by_cases he : sch.m_tasks = [] <;> cases idleTerm <;> simp [he]

theorem Scheduler_dequeue_spec_witness :
    testQueue = [⟨Work.fiber 1, 9⟩] ++ ⟨Work.cb 2, -1⟩ :: [⟨Work.fiber 3, 7⟩, ⟨Work.cb 4, -1⟩] ∧
    (∀ y ∈ [(⟨Work.fiber 1, 9⟩ : ScheduleTask)], y.thread ≠ -1 ∧ y.thread ≠ 7) ∧
    ((⟨Work.cb 2, -1⟩ : ScheduleTask).thread = -1 ∨ (⟨Work.cb 2, -1⟩ : ScheduleTask).thread = 7) ∧
    (Scheduler.dequeue 7 ⟨testQueue, 0⟩).1 = some ⟨Work.cb 2, -1⟩ ∧
    (Scheduler.dequeue 7 ⟨testQueue, 0⟩).2.2.m_tasks =
      [⟨Work.fiber 1, 9⟩] ++ [⟨Work.fiber 3, 7⟩, ⟨Work.cb 4, -1⟩] :=
  ⟨rfl, by decide, by decide,
    (Scheduler_dequeue_spec 7 ⟨testQueue, 0⟩).2.2.1 [⟨Work.fiber 1, 9⟩] ⟨Work.cb 2, -1⟩
      [⟨Work.fiber 3, 7⟩, ⟨Work.cb 4, -1⟩] rfl (by decide) (by decide)⟩

/-- C15: after the scan of worker `t`, `tickle_me` is true exactly when the
queue is not empty once the taken task, if any, is removed; so it is true
whenever a task was skipped as pinned to another thread, and when no task was
taken it is true iff the queue is not empty; and the round calls `tickle()`
exactly when `tickle_me` is true. -/
theorem Scheduler_tickle_me (t : Int) (sch : Scheduler) :
    ((Scheduler.dequeue t sch).2.1 = true ↔ (Scheduler.dequeue t sch).2.2.m_tasks ≠ []) ∧
    (sch.m_tasks.takeWhile (fun x => decide (x.thread ≠ -1 ∧ x.thread ≠ t)) ≠ [] →
      (Scheduler.dequeue t sch).2.1 = true) ∧
    ((Scheduler.dequeue t sch).1 = none →
      ((Scheduler.dequeue t sch).2.1 = true ↔ (Scheduler.dequeue t sch).2.2.m_tasks ≠ [])) ∧
    (∀ fiberTerm idleTerm,
      RunAct.tickle ∈ (Scheduler.round t fiberTerm idleTerm sch).1 ↔
        (Scheduler.dequeue t sch).2.1 = true) := by
  have ht := Scheduler_scan_tickle t sch.m_tasks false
  have hiff : (Scheduler.dequeue t sch).2.1 = true ↔
      (Scheduler.dequeue t sch).2.2.m_tasks ≠ [] := by
    unfold Scheduler.dequeue
    dsimp only
    rw [ht]
    simp
  refine ⟨hiff, ?_, fun _ => hiff, ?_⟩
  · intro hs
    rw [hiff]
    unfold Scheduler.dequeue
    dsimp only
    cases hq : sch.m_tasks with
    | nil => rw [hq] at hs; simp at hs
    | cons x rest =>
      rw [hq] at hs
      by_cases hx : x.thread ≠ -1 ∧ x.thread ≠ t
      · unfold Scheduler.scan
        rw [if_pos hx]
        simp
      · rw [List.takeWhile_cons, if_neg (by simpa using hx)] at hs
        exact absurd rfl hs
  · intro fiberTerm idleTerm
    unfold Scheduler.round Scheduler.dispatch
    dsimp only
    rcases Scheduler.dequeue t sch with ⟨task, tm, sch2⟩
    rcases task with _ | ⟨⟨id⟩ | ⟨id⟩, th⟩
    · cases tm <;> cases idleTerm <;> simp
    · cases tm <;> cases hft : fiberTerm id <;> simp [hft]
    · cases tm <;> simp

theorem Scheduler_tickle_me_witness :
    testQueue.takeWhile (fun x => decide (x.thread ≠ -1 ∧ x.thread ≠ 7)) ≠ [] ∧
    (Scheduler.dequeue 7 ⟨testQueue, 0⟩).2.1 = true :=
  ⟨by decide, (Scheduler_tickle_me 7 ⟨testQueue, 0⟩).2.1 (by decide)⟩

/-! ## Failure of the original `F_GETFL`, long sleeps, the timeout action -/

theorem lor_neg_one_O_NONBLOCK : Int.lor (-1) O_NONBLOCK = -1 := by
  show Int.negSucc (Nat.ldiff 0 2048) = _
  simp [Nat.ldiff]

/-- The `F_GETFL` branch on a socket context that is not closed, in closed
form. -/
theorem fcntl_F_GETFL_eq (E : Env K) (s : St K) (fd arg : Int) (ctx : FdCtx)
    (hctx : (FdManager.get E s fd false).1 = some ctx)
    (hsock : ctx.isSocket = true) (hopen : ctx.isClosed = false) :
    fcntl E fd F_GETFL arg s =
      (if ctx.getUserNonblock = true then
          Int.lor (rawCall E ⟨Sym.fcntl, [fd, F_GETFL]⟩ s).1 O_NONBLOCK
        else Int.land (rawCall E ⟨Sym.fcntl, [fd, F_GETFL]⟩ s).1 (Int.lnot O_NONBLOCK),
        (rawCall E ⟨Sym.fcntl, [fd, F_GETFL]⟩ s).2) := by
  have hg := (FdManager_get_eq_some E s fd ctx).mp hctx
  have hget : FdManager.get E (rawCall E ⟨Sym.fcntl, [fd, F_GETFL]⟩ s).2 fd false =
      (some ctx, (rawCall E ⟨Sym.fcntl, [fd, F_GETFL]⟩ s).2) := by
    rw [FdManager_get_false, if_pos hg.1, rawCall_m_datas, hg.2]
  unfold fcntl
  have hne : ¬ F_GETFL = F_SETFL := by decide
  simp only [hne, if_false, if_true, hget, hopen, hsock, Bool.false_eq_true,
    Bool.true_eq_false, or_self]
  split_ifs <;> rfl

/-- C14, evaluated where it fails.  Slot 5 holds an open socket context with
`user_nonblock` clear and the original `fcntl(5, F_GETFL)` returns `-1` with
`errno = EBADF`: the wrapper returns `-1 & ~O_NONBLOCK = -2049`, not `-1`
(`errno` is left as the original call set it).  With `user_nonblock` set the
same failure does come back as `-1`. -/
theorem fcntl_F_GETFL_failure_masked :
    (rawCall (testEnv (fun _ => -1) (fun _ _ => EBADF) true false) ⟨Sym.fcntl, [5, F_GETFL]⟩
      (testSt true testTable)).1 = -1 ∧
    (testSt true testTable).m_datas.getD 5 none = some (sockCtx 5) ∧
    (sockCtx 5).getUserNonblock = false ∧
    (fcntl (testEnv (fun _ => -1) (fun _ _ => EBADF) true false) 5 F_GETFL 0
      (testSt true testTable)).1 = -2049 ∧
    (fcntl (testEnv (fun _ => -1) (fun _ _ => EBADF) true false) 5 F_GETFL 0
      (testSt true testTable)).2.errno = EBADF ∧
    (fcntl (testEnv (fun _ => -1) (fun _ _ => EBADF) true false) 5 F_GETFL 0
      (testSt true (FdManager.new.set 5 (some ((sockCtx 5).setUserNonblock true))))).1 = -1 := by
  refine ⟨by decide, by decide, by decide, by decide, by decide, ?_⟩
  rw [fcntl_F_GETFL_eq _ _ 5 0 ((sockCtx 5).setUserNonblock true) (by decide) rfl rfl]
  exact lor_neg_one_O_NONBLOCK

/-- Hooked `sleep` below the wrap: with the hook flag set and
`seconds * 1000 < 2^32`, the wrapper registers a one-shot timer of exactly
`seconds * 1000` ms for target `-1`, yields and returns `0`. -/
theorem sleep_delay_exact (E : Env K) (s : St K) (seconds : Nat)
    (hhook : s.t_hook_enable = true) (hsmall : seconds * 1000 < 2 ^ 32) :
    sleep E seconds s =
      (0, (yield E 0 0 false {} (s.emit (Act.addTimer (seconds * 1000) false (-1)))).2) := by
  unfold sleep
  simp only [hhook, Bool.true_eq_false, if_false, Nat.mod_eq_of_lt hsmall]

/-- C16, evaluated where it fails.  `4294968` is an `unsigned int`, and on a
hooked thread `sleep(4294968)` registers a one-shot timer of
`4294968 * 1000 mod 2^32 = 704` ms for target `-1`, yields and returns `0`;
the product is `4294968000` ms.  `sleep(1)` registers 1000 ms. -/
theorem sleep_delay_wraps :
    4294968 < 2 ^ 32 ∧
    sleep (testEnv (fun _ => 0) (fun _ e => e) true false) 4294968 (testSt true FdManager.new)
      = (0, { testSt true FdManager.new with
          log := [Act.addTimer 704 false (-1), Act.yield] }) ∧
    (704 : Nat) ≠ 4294968 * 1000 ∧
    (sleep (testEnv (fun _ => 0) (fun _ e => e) true false) 1
      (testSt true FdManager.new)).2.log = [Act.addTimer 1000 false (-1), Act.yield] := by
  refine ⟨by decide, rfl, by decide, rfl⟩

/-- Running the timeout action `n` times in a row. -/
theorem timeout_action_iterate_done (fd : Int) (event : Nat) (t : timer_info) (s : St K)
    (ht : t.cancelled ≠ 0) (n : Nat) :
    (fun p : Option timer_info × St K => timeout_action fd event p.1 p.2)^[n] (some t, s)
      = (some t, s) := by
  induction n with
  | zero => rfl
  | succ n ih =>
    rw [Function.iterate_succ_apply]
    have h1 : timeout_action fd event (some t) s = (some t, s) := by
      simp only [timeout_action, if_pos ht]
    simp only [h1]
    exact ih

/-- C17: the timeout action that `do_io` and `connect_with_timeout` install
does nothing when the weak `timer_info` no longer resolves or its `cancelled`
is already nonzero; otherwise it sets `cancelled = ETIMEDOUT` and calls
`cancelEvent(fd, event)` once.  After that first run any number of further
runs changes nothing, so however often the action runs, the log gains one
`cancelEvent` at most. -/
theorem timeout_action_once (fd : Int) (event : Nat) (s : St K) :
    timeout_action fd event none s = (none, s) ∧
    (∀ t : timer_info, t.cancelled ≠ 0 → timeout_action fd event (some t) s = (some t, s)) ∧
    (∀ t : timer_info, t.cancelled = 0 →
      timeout_action fd event (some t) s =
        (some { cancelled := ETIMEDOUT }, s.emit (Act.cancelEvent fd event)) ∧
      ∀ n, (fun p : Option timer_info × St K => timeout_action fd event p.1 p.2)^[n]
          (timeout_action fd event (some t) s)
        = (some { cancelled := ETIMEDOUT }, s.emit (Act.cancelEvent fd event))) ∧
    (∀ (w : Option timer_info) (n : Nat),
      ((fun p : Option timer_info × St K => timeout_action fd event p.1 p.2)^[n] (w, s)).2.log
          = s.log ∨
      ((fun p : Option timer_info × St K => timeout_action fd event p.1 p.2)^[n] (w, s)).2.log
          = s.log ++ [Act.cancelEvent fd event]) := by
  have hfirst : ∀ t : timer_info, t.cancelled = 0 →
      timeout_action fd event (some t) s =
        (some { cancelled := ETIMEDOUT }, s.emit (Act.cancelEvent fd event)) := by
    intro t ht
    simp only [timeout_action, ht, ne_eq, not_true_eq_false, if_false]
  have hdone : ∀ (t : timer_info) (s1 : St K), t.cancelled ≠ 0 →
      timeout_action fd event (some t) s1 = (some t, s1) := by
    intro t s1 ht
    simp only [timeout_action, if_pos ht]
  have hE : ({ cancelled := ETIMEDOUT } : timer_info).cancelled ≠ 0 := by decide
  refine ⟨rfl, fun t ht => hdone t s ht, ?_, ?_⟩
  · intro t ht
    refine ⟨hfirst t ht, ?_⟩
    intro n
    rw [hfirst t ht]
    exact timeout_action_iterate_done fd event _ _ hE n
  · intro w n
    cases n with
    | zero => exact Or.inl rfl
    | succ n =>
      rw [Function.iterate_succ_apply]
      rcases w with _ | t
      · left
        have hnone : ∀ m, (fun p : Option timer_info × St K =>
            timeout_action fd event p.1 p.2)^[m] (none, s) = (none, s) := by
          intro m
          induction m with
          | zero => rfl
          | succ m ih => rw [Function.iterate_succ_apply]; exact ih
        show ((fun p : Option timer_info × St K => timeout_action fd event p.1 p.2)^[n]
          (none, s)).2.log = s.log
        rw [hnone]
      · by_cases ht : t.cancelled = 0
        · right
          show ((fun p : Option timer_info × St K => timeout_action fd event p.1 p.2)^[n]
            (timeout_action fd event (some t) s)).2.log = _
          rw [hfirst t ht, timeout_action_iterate_done fd event _ _ hE n]
          rfl
        · left
          show ((fun p : Option timer_info × St K => timeout_action fd event p.1 p.2)^[n]
            (timeout_action fd event (some t) s)).2.log = _
          rw [hdone t s ht, timeout_action_iterate_done fd event _ _ ht n]

theorem timeout_action_once_witness :
    ({} : timer_info).cancelled = 0 ∧
    (fun p : Option timer_info × St Unit => timeout_action 5 READ p.1 p.2)^[3]
        (timeout_action 5 READ (some {}) (testSt true testTable))
      = (some { cancelled := ETIMEDOUT },
          (testSt true testTable).emit (Act.cancelEvent 5 READ)) :=
  ⟨rfl, ((timeout_action_once 5 READ (testSt true testTable)).2.2.1 {} rfl).2 3⟩

/-! ## The `is_closed` flag -/

theorem mem_of_getD_eq_some (m : List (Option FdCtx)) (i : Nat) (c : FdCtx)
    (h : m.getD i none = some c) : some c ∈ m := by
  rw [List.getD_eq_getElem?_getD] at h
  cases hi : m[i]? with
  | none => rw [hi] at h; exact Option.noConfusion h
  | some x =>
    rw [hi] at h
    have hx : x = some c := h
    rw [← hx]
    exact List.getElem?_mem hi

theorem NoClosed_new : NoClosed FdManager.new := by
  intro c hc
  simp [FdManager.new, vector_resize] at hc

theorem NoClosed_set (m : List (Option FdCtx)) (i : Nat) (x : Option FdCtx)
    (hm : NoClosed m) (hx : ∀ c, x = some c → c.isClosed = false) : NoClosed (m.set i x) := by
  intro c hc
  rcases List.mem_or_eq_of_mem_set hc with h | h
  · exact hm c h
  · exact hx c h.symm

theorem NoClosed_resize (m : List (Option FdCtx)) (n : Nat) (hm : NoClosed m) :
    NoClosed (vector_resize m n) := by
  intro c hc
  simp only [vector_resize, List.mem_append, List.mem_replicate] at hc
  rcases hc with h | h
  · exact hm c (List.mem_of_mem_take h)
  · exact Option.noConfusion h.2

theorem FdCtx_init_isClosed (E : Env K) (c : FdCtx) (s : St K) :
    (FdCtx.init E c s).2.1.isClosed = c.isClosed := by
  unfold FdCtx.init
  dsimp only
  split_ifs <;> rfl

theorem NoClosed_create (E : Env K) (s : St K) (fd : Int) (hm : NoClosed s.m_datas) :
    NoClosed (FdManager.create E s fd).2.m_datas := by
  unfold FdManager.create
  simp only [FdCtx_new_m_datas]
  apply NoClosed_set
  · split_ifs
    · exact NoClosed_resize _ _ hm
    · exact hm
  · intro c hc
    cases hc
    exact (FdCtx_new_defaults E fd _).2.1

theorem NoClosed_get (E : Env K) (s : St K) (fd : Int) (ac : Bool) (hm : NoClosed s.m_datas) :
    NoClosed (FdManager.get E s fd ac).2.m_datas := by
  unfold FdManager.get
  split_ifs <;> first | exact hm | exact NoClosed_create E s fd hm

theorem FdManager_create_open (E : Env K) (s : St K) (fd : Int) (c : FdCtx)
    (h : (FdManager.create E s fd).1 = some c) : c.isClosed = false := by
  unfold FdManager.create at h
  dsimp only at h
  cases h
  exact (FdCtx_new_defaults E fd _).2.1

/-- On a table without closed contexts, `get` returns an open context. -/
theorem FdManager_get_open (E : Env K) (s : St K) (fd : Int) (ac : Bool) (c : FdCtx)
    (hm : NoClosed s.m_datas) (h : (FdManager.get E s fd ac).1 = some c) :
    c.isClosed = false := by
  unfold FdManager.get at h
  by_cases h1 : fd = -1
  · rw [if_pos h1] at h
    exact Option.noConfusion h
  rw [if_neg h1] at h
  by_cases h2 : fd < 0
  · rw [if_pos h2] at h
    exact Option.noConfusion h
  rw [if_neg h2] at h
  by_cases h3 : s.m_datas.length ≤ fd.toNat
  · rw [if_pos h3] at h
    by_cases h4 : ac = false
    · rw [if_pos h4] at h
      exact Option.noConfusion h
    · rw [if_neg h4] at h
      exact FdManager_create_open E s fd c h
  · rw [if_neg h3] at h
    by_cases h4 : (s.m_datas.getD fd.toNat none).isSome ∨ ac = false
    · rw [if_pos h4] at h
      exact hm c (mem_of_getD_eq_some _ _ _ h)
    · rw [if_neg h4] at h
      exact FdManager_create_open E s fd c h

theorem NoClosed_del (s : St K) (fd : Int) (hm : NoClosed s.m_datas) :
    NoClosed (FdManager.del s fd).m_datas := by
  unfold FdManager.del
  split_ifs
  · exact hm
  · exact NoClosed_set _ _ _ hm (fun c hc => Option.noConfusion hc)

theorem NoClosed_store (s : St K) (fd : Int) (c : FdCtx) (hm : NoClosed s.m_datas)
    (hc : c.isClosed = false) : NoClosed (s.store fd c).m_datas :=
  NoClosed_set _ _ _ hm (fun c1 h1 => by cases h1; exact hc)

@[simp] theorem emit_m_datas (s : St K) (a : Act) : (s.emit a).m_datas = s.m_datas := rfl

@[simp] theorem addEvent_m_datas (E : Env K) (fd : Int) (event : Nat) (s : St K) :
    (addEvent E fd event s).2.m_datas = s.m_datas := rfl

@[simp] theorem yield_m_datas (E : Env K) (fd : Int) (event : Nat) (timer : Bool)
    (t : timer_info) (s : St K) : (yield E fd event timer t s).2.m_datas = s.m_datas := by
  unfold yield
  dsimp only
  split_ifs
  · unfold timeout_action
    dsimp only
    split_ifs <;> rfl
  · rfl

theorem call_while_EINTR_m_datas (E : Env K) (c : Call) (fuel : Nat) (s : St K)
    (r : Int × St K) (h : call_while_EINTR E c fuel s = some r) :
    r.2.m_datas = s.m_datas := by
  induction fuel generalizing s with
  | zero => simp [call_while_EINTR] at h
  | succ n ih =>
    unfold call_while_EINTR at h
    dsimp only at h
    split_ifs at h with hc
    · exact (ih _ h).trans rfl
    · cases h
      rfl

theorem do_io_wait_m_datas (E : Env K) (fd : Int) (event : Nat) (timeout : Nat)
    (t : timer_info) (s : St K) :
    (∀ res, do_io_wait E fd event timeout t s = Sum.inl res → res.2.m_datas = s.m_datas) ∧
    (∀ next, do_io_wait E fd event timeout t s = Sum.inr next →
      next.2.m_datas = s.m_datas) := by
  unfold do_io_wait
  dsimp only
  constructor <;> intro x hx <;> split_ifs at hx <;> cases hx <;> simp

theorem do_io_retry_m_datas (E : Env K) (fd : Int) (c : Call) (event : Nat) (timeout : Nat)
    (fuel : Nat) (t : timer_info) (s : St K) (r : Int × St K)
    (h : do_io_retry E fd c event timeout fuel t s = some r) :
    r.2.m_datas = s.m_datas := by
  induction fuel generalizing t s with
  | zero => simp [do_io_retry] at h
  | succ n ih =>
    rw [do_io_retry_succ] at h
    cases hc : call_while_EINTR E c (n + 1) s with
    | none => simp [hc] at h
    | some r1 =>
      have hp := call_while_EINTR_m_datas E c (n + 1) s r1 hc
      simp only [hc] at h
      by_cases h1 : r1.1 = -1 ∧ r1.2.errno = EAGAIN
      · rw [if_pos h1] at h
        cases hw : do_io_wait E fd event timeout t r1.2 with
        | inl res =>
          simp only [hw] at h
          cases h
          exact ((do_io_wait_m_datas E fd event timeout t r1.2).1 _ hw).trans hp
        | inr next =>
          simp only [hw] at h
          exact (ih _ _ h).trans
            (((do_io_wait_m_datas E fd event timeout t r1.2).2 _ hw).trans hp)
      · rw [if_neg h1] at h
        cases h
        exact hp

/-- The template never writes the table. -/
theorem do_io_m_datas (E : Env K) (s : St K) (fd : Int) (sym : Sym) (event : Nat)
    (timeout_so : Int) (args : List Int) (fuel : Nat) (r : Int × St K)
    (h : do_io E fd sym event timeout_so args fuel s = some r) :
    r.2.m_datas = s.m_datas := by
  unfold do_io at h
  simp only [FdManager_get_false_snd] at h
  split_ifs at h with h1
  · cases h
    rfl
  · cases hg : (FdManager.get E s fd false).1 with
    | none =>
      simp only [hg] at h
      cases h
      rfl
    | some ctx =>
      simp only [hg] at h
      split_ifs at h
      · cases h
        rfl
      · cases h
        rfl
      · exact do_io_retry_m_datas E fd _ event _ fuel _ s r h

theorem connect_wait_m_datas (E : Env K) (fd : Int) (timeout_ms : Nat) (s : St K) :
    (connect_wait E fd timeout_ms s).2.m_datas = s.m_datas := by
  unfold connect_wait getsockopt
  dsimp only
  split_ifs <;> simp

theorem connect_with_timeout_m_datas (E : Env K) (s : St K) (fd addr addrlen : Int)
    (timeout_ms : Nat) :
    (connect_with_timeout E fd addr addrlen timeout_ms s).2.m_datas = s.m_datas := by
  unfold connect_with_timeout
  simp only [FdManager_get_false_snd]
  by_cases hh : s.t_hook_enable = false
  · rw [if_pos hh]
    rfl
  · rw [if_neg hh]
    cases hg : (FdManager.get E s fd false).1 with
    | none => rfl
    | some ctx =>
      dsimp only
      split_ifs
      · rfl
      · rfl
      · rfl
      · rfl
      · rfl
      · exact (connect_wait_m_datas E fd timeout_ms _).trans rfl

theorem NoClosed_sleeps (E : Env K) (s : St K) (hm : NoClosed s.m_datas) :
    (∀ seconds, NoClosed (sleep E seconds s).2.m_datas) ∧
    (∀ usec, NoClosed (usleep E usec s).2.m_datas) ∧
    (∀ req rem sec nsec, NoClosed (nanosleep E req rem sec nsec s).2.m_datas) := by
  refine ⟨?_, ?_, ?_⟩ <;> intros <;>
    simp only [sleep, usleep, nanosleep] <;> split_ifs <;> simpa using hm

theorem NoClosed_socket (E : Env K) (s : St K) (d t p : Int) (hm : NoClosed s.m_datas) :
    NoClosed (socket E d t p s).2.m_datas := by
  unfold socket
  dsimp only
  split_ifs
  · exact hm
  · exact hm
  · exact NoClosed_get E _ _ true hm

theorem NoClosed_accept (E : Env K) (s : St K) (sockfd addr addrlen : Int) (fuel : Nat)
    (r : Int × St K) (hm : NoClosed s.m_datas)
    (h : accept E sockfd addr addrlen fuel s = some r) : NoClosed r.2.m_datas := by
  unfold accept at h
  cases hd : do_io E sockfd Sym.accept READ SO_RCVTIMEO [addr, addrlen] fuel s with
  | none => simp [hd] at h
  | some r1 =>
    have hr1 : NoClosed r1.2.m_datas := by
      rw [do_io_m_datas E s _ _ _ _ _ _ r1 hd]
      exact hm
    simp only [hd] at h
    split_ifs at h
    · cases h
      exact NoClosed_get E _ _ true hr1
    · cases h
      exact hr1

theorem NoClosed_close (E : Env K) (s : St K) (fd : Int) (hm : NoClosed s.m_datas) :
    NoClosed (close E fd s).2.m_datas := by
  unfold close
  simp only [FdManager_get_false_snd]
  by_cases hh : s.t_hook_enable = false
  · rw [if_pos hh]
    exact hm
  · rw [if_neg hh]
    cases hg : (FdManager.get E s fd false).1 with
    | none => exact hm
    | some ctx =>
      dsimp only
      rw [rawCall_m_datas]
      apply NoClosed_del
      split_ifs <;> exact hm

theorem NoClosed_fcntl (E : Env K) (s : St K) (fd cmd arg : Int) (hm : NoClosed s.m_datas) :
    NoClosed (fcntl E fd cmd arg s).2.m_datas := by
  unfold fcntl
  simp only [FdManager_get_false_snd]
  by_cases h1 : cmd = F_SETFL
  · rw [if_pos h1]
    cases hg : (FdManager.get E s fd false).1 with
    | none => exact hm
    | some ctx =>
      dsimp only
      by_cases hc : ctx.isClosed = true ∨ ctx.isSocket = false
      · rw [if_pos hc]
        exact hm
      · rw [if_neg hc, rawCall_m_datas]
        exact NoClosed_store s fd _ hm (FdManager_get_open E s fd false ctx hm hg)
  · rw [if_neg h1]
    by_cases h2 : cmd = F_GETFL
    · rw [if_pos h2]
      cases hg : (FdManager.get E (rawCall E ⟨Sym.fcntl, [fd, cmd]⟩ s).2 fd false).1 with
      | none => exact hm
      | some ctx =>
        dsimp only
        split_ifs <;> exact hm
    · rw [if_neg h2]
      split_ifs <;> exact hm

theorem NoClosed_ioctl (E : Env K) (s : St K) (fd request arg argval : Int)
    (hm : NoClosed s.m_datas) : NoClosed (ioctl E fd request arg argval s).2.m_datas := by
  unfold ioctl
  simp only [FdManager_get_false_snd]
  by_cases h1 : FIONBIO = request
  · rw [if_pos h1]
    cases hg : (FdManager.get E s fd false).1 with
    | none => exact hm
    | some ctx =>
      dsimp only
      by_cases hc : ctx.isClosed = true ∨ ctx.isSocket = false
      · rw [if_pos hc]
        exact hm
      · rw [if_neg hc, rawCall_m_datas]
        exact NoClosed_store s fd _ hm (FdManager_get_open E s fd false ctx hm hg)
  · rw [if_neg h1]
    exact hm

theorem NoClosed_setsockopt (E : Env K) (s : St K) (fd level name val len sec usec : Int)
    (hm : NoClosed s.m_datas) :
    NoClosed (setsockopt E fd level name val len sec usec s).2.m_datas := by
  unfold setsockopt
  simp only [FdManager_get_false_snd]
  by_cases hh : s.t_hook_enable = false
  · rw [if_pos hh]
    exact hm
  · rw [if_neg hh]
    by_cases h1 : level = SOL_SOCKET ∧ (name = SO_RCVTIMEO ∨ name = SO_SNDTIMEO)
    · rw [if_pos h1]
      cases hg : (FdManager.get E s fd false).1 with
      | none => exact hm
      | some ctx =>
        dsimp only
        rw [rawCall_m_datas]
        apply NoClosed_store s fd _ hm
        have ho := FdManager_get_open E s fd false ctx hm hg
        unfold FdCtx.setTimeout
        split_ifs <;> exact ho
    · rw [if_neg h1]
      exact hm

/-- Every reachable state has a table without closed contexts. -/
theorem Reachable_NoClosed (E : Env K) (s : St K) (h : Reachable E s) :
    NoClosed s.m_datas := by
  induction h with
  | ctor hook errno kernel log => exact NoClosed_new
  | outside s hook errno kernel log _ ih => exact ih
  | get s fd ac _ ih => exact NoClosed_get E s fd ac ih
  | del s fd _ ih => exact NoClosed_del s fd ih
  | init s fd c _ hc ih =>
    apply NoClosed_store
    · rw [FdCtx_init_m_datas]
      exact ih
    · rw [FdCtx_init_isClosed]
      exact ih c (mem_of_getD_eq_some _ _ _ hc)
  | setUserNonblock s fd c v _ hc ih =>
    exact NoClosed_store s fd _ ih (ih c (mem_of_getD_eq_some _ _ _ hc))
  | setSysNonblock s fd c v _ hc ih =>
    exact NoClosed_store s fd _ ih (ih c (mem_of_getD_eq_some _ _ _ hc))
  | setTimeout s fd c type v _ hc ih =>
    apply NoClosed_store s fd _ ih
    have ho := ih c (mem_of_getD_eq_some _ _ _ hc)
    unfold FdCtx.setTimeout
    split_ifs <;> exact ho
  | sleep s seconds _ ih => exact (NoClosed_sleeps E s ih).1 seconds
  | usleep s usec _ ih => exact (NoClosed_sleeps E s ih).2.1 usec
  | nanosleep s req rem sec nsec _ ih => exact (NoClosed_sleeps E s ih).2.2 req rem sec nsec
  | socket s d t p _ ih => exact NoClosed_socket E s d t p ih
  | connect_with_timeout s fd addr addrlen timeout_ms _ ih =>
    rw [connect_with_timeout_m_datas]
    exact ih
  | do_io s fd sym event so args fuel r _ hr ih =>
    rw [do_io_m_datas E s fd sym event so args fuel r hr]
    exact ih
  | accept s sockfd addr addrlen fuel r _ hr ih =>
    exact NoClosed_accept E s sockfd addr addrlen fuel r ih hr
  | close s fd _ ih => exact NoClosed_close E s fd ih
  | fcntl s fd cmd arg _ ih => exact NoClosed_fcntl E s fd cmd arg ih
  | ioctl s fd request arg argval _ ih => exact NoClosed_ioctl E s fd request arg argval ih
  | getsockopt s sockfd level optname optval optlen _ ih => exact ih
  | setsockopt s fd level name val len sec usec _ ih =>
    exact NoClosed_setsockopt E s fd level name val len sec usec ih

/-- C18: in every state reachable through `FdCtx`, `FdManager` and the hooked
wrappers (`close` included), no stored context has `is_closed` set: every
slot's context and every context `get` returns, also after a call of an
original symbol, has `isClosed() == false`.  So the `is_closed` tests of
`connect_with_timeout`, `fcntl` and `ioctl` are never true, and `do_io` is
its body without the branch that returns `-1` with `errno = EBADF`. -/
theorem isClosed_never_set (E : Env K) (s : St K) (h : Reachable E s) :
    (∀ i c, s.m_datas.getD i none = some c → c.isClosed = false) ∧
    (∀ fd ac c, (FdManager.get E s fd ac).1 = some c → c.isClosed = false) ∧
    (∀ call fd c, (FdManager.get E (rawCall E call s).2 fd false).1 = some c →
      c.isClosed = false) ∧
    (∀ fd sym event timeout_so args fuel,
      do_io E fd sym event timeout_so args fuel s =
        if s.t_hook_enable = false then some (rawCall E ⟨sym, fd :: args⟩ s)
        else
          match (FdManager.get E s fd false).1 with
          | none => some (rawCall E ⟨sym, fd :: args⟩ s)
          | some ctx =>
            if ctx.isSocket = false ∨ ctx.getUserNonblock then
              some (rawCall E ⟨sym, fd :: args⟩ s)
            else do_io_retry E fd ⟨sym, fd :: args⟩ event (ctx.getTimeout timeout_so) fuel {} s) := by
  have hm := Reachable_NoClosed E s h
  refine ⟨fun i c hc => hm c (mem_of_getD_eq_some _ _ _ hc),
    fun fd ac c hc => FdManager_get_open E s fd ac c hm hc,
    fun call fd c hc => FdManager_get_open E (rawCall E call s).2 fd false c hm hc, ?_⟩
  intro fd sym event timeout_so args fuel
  unfold do_io
  simp only [FdManager_get_false_snd]
  by_cases hh : s.t_hook_enable = false
  · rw [if_pos hh, if_pos hh]
  · rw [if_neg hh, if_neg hh]
    cases hg : (FdManager.get E s fd false).1 with
    | none => rfl
    | some ctx =>
      dsimp only
      have ho := FdManager_get_open E s fd false ctx hm hg
      rw [ho]
      simp only [Bool.false_eq_true, if_false]

theorem isClosed_never_set_witness :
    Reachable (testEnv (fun _ => 0) (fun _ e => e) true false)
      (FdManager.get (testEnv (fun _ => 0) (fun _ e => e) true false)
        (testSt true FdManager.new) 5 true).2 ∧
    (FdManager.get (testEnv (fun _ => 0) (fun _ e => e) true false)
      (testSt true FdManager.new) 5 true).2.m_datas.getD 5 none = some (sockCtx 5) ∧
    (sockCtx 5).isClosed = false :=
  ⟨Reachable.get _ 5 true (Reachable.ctor true 0 () []), by decide,
    (isClosed_never_set (testEnv (fun _ => 0) (fun _ e => e) true false) _
      (Reachable.get (testSt true FdManager.new) 5 true (Reachable.ctor true 0 () []))).1 5
      (sockCtx 5) (by decide)⟩

end Coroutine
